import Mathlib

/-!
Verification of the `opaque-ke` Python binding's specification.

The repository ships only the Python loader and the test suite; the protocol
core (registration and login state machines, OPRF, envelope, AKE,
serialization and error taxonomy) lives in a compiled extension module that is
not part of the visible sources.  Following the specification, the core is
modelled here as a shallow embedding:

* The prime-order group is modelled as the additive group `ZMod P` for a
  concrete prime `P`, with scalar multiplication acting by field
  multiplication and generator `1`.  Every prime-order cyclic group is
  isomorphic to this one; constant-time execution is outside the model.
* "Bytes" are lists of natural numbers.  Fixed-width fields follow the layout
  the specification pins down (`ServerSetup` = 64-cell OPRF seed ‖ 32-cell
  secret key ‖ 32-cell public key; scalar and group-element fields occupy 32
  cells and hash/MAC outputs 64 cells).  Since `P < 256`, the canonical
  little-endian encoding of a field value is its value in cell 0 followed by
  zero cells.
* Cryptographic hashes, MACs and the key-stretching function are modelled as
  injective encodings (the usual random-oracle idealisation in which no
  collisions occur), built from `Nat.pair` with distinct domain-separation
  tags.
* Randomness is passed explicitly: each operation that samples a scalar or a
  nonce receives a natural number seed and derives a valid (nonzero) scalar
  from it, mirroring rejection sampling in the real implementation.
* Fallible operations return `Except Error α`; terminal (finish) operations
  additionally return the post-call state, modelling the in-place consumption
  of the Python state objects.
-/

namespace Opaque

/-- Byte strings are modelled as lists of natural numbers. -/
abbrev Bytes := List Nat

/-- Modelled from the spec: the order of the prime-order group used by the
missing compiled core.  Any concrete prime works for the model. -/
def P : Nat := 101

instance : Fact (Nat.Prime P) := ⟨by norm_num [P]⟩

instance : NeZero P := ⟨by norm_num [P]⟩

/-- Scalars of the prime-order group. -/
abbrev Scalar := ZMod P

/-- Group elements; the group is written additively with generator `1` and
scalar multiplication given by field multiplication. -/
abbrev Elem := ZMod P

/-- Modelled from the spec: the error taxonomy of the missing compiled core —
exactly four mutually exclusive terminal error kinds. -/
inductive Error
  | invalidLogin
  | invalidState
  | serializationError
  | sizeError
deriving DecidableEq

instance {e a : Type} [DecidableEq e] [DecidableEq a] : DecidableEq (Except e a) :=
  fun x y =>
    match x, y with
    | .ok u, .ok v =>
        if h : u = v then isTrue (by rw [h]) else isFalse (by simp [h])
    | .error u, .error v =>
        if h : u = v then isTrue (by rw [h]) else isFalse (by simp [h])
    | .ok _, .error _ => isFalse (by simp)
    | .error _, .ok _ => isFalse (by simp)

/-- Scalar multiplication of a group element. -/
def smul (a : Scalar) (x : Elem) : Elem := a * x

/-- Public key of a secret scalar: the generator scalar-multiplied by it. -/
def genPub (a : Scalar) : Elem := smul a 1

/-- Injective packing of a byte string into a natural number (used to model
collision-free hashing). -/
def packL : List Nat → Nat
  | [] => 0
  | b :: t => Nat.pair b (packL t) + 1

/-- Modelled from the spec: a 64-cell hash/MAC output derived from a natural
number; the derivation is injective. -/
def hashOut (n : Nat) : Bytes := n :: List.replicate 63 0

/-- Canonical 32-cell encoding of a value `n < 256^32`; with `P < 256` the
little-endian encoding of a field value is the value itself in cell 0. -/
def enc32 (n : Nat) : Bytes := n :: List.replicate 31 0

/-- Encoding of a group element. -/
def elemEnc (x : Elem) : Bytes := enc32 x.val

/-- Value carried by a 32-cell field. -/
def readField (bs : Bytes) : Nat := bs.headD 0

/-- Modelled from the spec: deserialize a canonically encoded, non-identity
group element (`SerializationError` on a non-canonical or identity
encoding). -/
def readNZ (bs : Bytes) : Except Error Elem :=
  if bs = enc32 (readField bs) ∧ readField bs < P ∧ readField bs ≠ 0 then
    .ok ((readField bs : Nat) : Elem)
  else .error .serializationError

/-- Modelled from the spec: deserialize a canonically encoded scalar (zero
allowed). -/
def readScalar (bs : Bytes) : Except Error Scalar :=
  if bs = enc32 (readField bs) ∧ readField bs < P then
    .ok ((readField bs : Nat) : Scalar)
  else .error .serializationError

/-- Modelled from the spec: sampling of a uniformly random nonzero scalar from
a randomness seed (the real core rejects zero when sampling blinding scalars
and key pairs). -/
def nonzeroScalar (n : Nat) : Scalar :=
  if n % P = 0 then 1 else ((n % P : Nat) : Scalar)

/-- Modelled from the spec: the hash-to-group function applied to the
password; its output is never the identity. -/
def hashToGroup (pwd : Bytes) : Elem := nonzeroScalar (Nat.pair 1 (packL pwd))

/-- Modelled from the spec: per-user OPRF key derived from the OPRF seed and
the credential identifier via a keyed hash-to-scalar. -/
def oprfKeyOf (seed cid : Bytes) : Scalar :=
  nonzeroScalar (Nat.pair 2 (Nat.pair (packL seed) (packL cid)))

/-- Modelled from the spec: the OPRF finalization hash over the password and
the unblinded element; injective in the password. -/
def oprfFinalize (pwd : Bytes) (y : Elem) : Nat :=
  Nat.pair 3 (Nat.pair (packL pwd) y.val)

/-- Modelled from the spec: the closed set of key-stretching policies. -/
inductive KeyStretching
  | standard
  | memoryConstrained
  | custom (n : Nat)
deriving DecidableEq

/-- Numeric tag of a key-stretching policy. -/
def ksfTag : KeyStretching → Nat
  | .standard => 0
  | .memoryConstrained => 1
  | .custom n => n + 2

/-- Modelled from the spec: the slow-hash (key-stretching) function applied to
the OPRF output; injective in both the policy and the input. -/
def stretch (ksf : KeyStretching) (rp : Nat) : Nat :=
  Nat.pair 4 (Nat.pair (ksfTag ksf) rp)

/-- Modelled from the spec: derivation of the client's static AKE secret key
from the stretched randomized password and the envelope nonce. -/
def deriveSk (rps : Nat) (nonce : Bytes) : Scalar :=
  nonzeroScalar (Nat.pair 5 (Nat.pair rps (packL nonce)))

/-- Modelled from the spec: derivation of the export key; derived alongside
the envelope but never used inside the protocol. -/
def exportKeyOf (rps : Nat) (nonce : Bytes) : Bytes :=
  hashOut (Nat.pair 6 (Nat.pair rps (packL nonce)))

/-- Modelled from the spec: the envelope authentication tag over the stretched
randomized password, envelope nonce, server public key, identifiers and
client public key; injective in the password-derived key. -/
def sealTag (rps : Nat) (nonce : Bytes) (spk : Elem) (ids : Bytes × Bytes)
    (cpk : Elem) : Bytes :=
  hashOut (Nat.pair 7 (Nat.pair rps (Nat.pair (packL nonce) (Nat.pair spk.val
    (Nat.pair (packL ids.1) (Nat.pair (packL ids.2) cpk.val))))))

/-- Modelled from the spec: the transcript hash over context, identifiers and
the exchanged messages. -/
def transcriptHash (ctx : Bytes) (ids : Bytes × Bytes) (ke1 ke2core : Bytes) :
    Nat :=
  Nat.pair 8 (Nat.pair (packL ctx) (Nat.pair (packL ids.1)
    (Nat.pair (packL ids.2) (Nat.pair (packL ke1) (packL ke2core)))))

/-- Modelled from the spec: the AKE secret combining the three Diffie-Hellman
shared values and the transcript hash. -/
def akeSecret (dh1 dh2 dh3 : Elem) (th : Nat) : Nat :=
  Nat.pair 9 (Nat.pair dh1.val (Nat.pair dh2.val (Nat.pair dh3.val th)))

/-- Session key derived from the AKE secret. -/
def sessionKeyOf (ake : Nat) : Bytes := hashOut (Nat.pair 10 ake)

/-- Server MAC key derived from the AKE secret. -/
def km2Of (ake : Nat) : Nat := Nat.pair 11 ake

/-- Client MAC key derived from the AKE secret. -/
def km3Of (ake : Nat) : Nat := Nat.pair 12 ake

/-- Modelled from the spec: the transcript MAC; injective in key and
message. -/
def macF (key msg : Nat) : Bytes := hashOut (Nat.pair 13 (Nat.pair key msg))

/-- Optional identity override bound into the key-exchange transcript;
defaults to the two static public keys. -/
abbrev IdPair := Bytes × Bytes

/-- Modelled from the spec: optional parameters of the client's registration
finish step. -/
structure ClientRegistrationFinishParameters where
  identifiers : Option IdPair := none
  ksf : KeyStretching := .standard
deriving DecidableEq

/-- Modelled from the spec: optional parameters of the client's login finish
step. -/
structure ClientLoginFinishParameters where
  context : Bytes := []
  identifiers : Option IdPair := none
  ksf : KeyStretching := .standard
deriving DecidableEq

/-- Modelled from the spec: optional parameters of the server's login
steps. -/
structure ServerLoginParameters where
  context : Bytes := []
  identifiers : Option IdPair := none
deriving DecidableEq

/-- Modelled from the spec: the server's long-lived secret — OPRF seed plus
static AKE key pair, with the invariant `pk = sk · G`. -/
structure ServerSetup where
  oprfSeed : Bytes
  sk : Scalar
  pk : Elem
deriving DecidableEq

/-- Modelled from the spec: creation of a `ServerSetup` from secure
randomness (a 64-cell seed and a nonzero secret scalar). -/
def ServerSetup.create (seedR skR : Nat) : ServerSetup :=
  let sk := nonzeroScalar skR
  { oprfSeed := hashOut seedR, sk := sk, pk := genPub sk }

/-- Modelled from the spec: `ServerSetup` serializes as
`oprf_seed (64) ‖ ake_secret_key (32) ‖ ake_public_key (32)`. -/
def ServerSetup.serialize (s : ServerSetup) : Bytes :=
  s.oprfSeed ++ (enc32 s.sk.val ++ enc32 s.pk.val)

/-- Modelled from the spec: deserialization of a `ServerSetup` — wrong length
is a `SizeError`; a non-canonical field or a public key that is not the
generator scalar-multiplied by the secret key is a `SerializationError`. -/
def ServerSetup.deserialize (bs : Bytes) : Except Error ServerSetup :=
  if bs.length ≠ 128 then .error .sizeError else
  match readScalar ((bs.drop 64).take 32), readNZ (bs.drop 96) with
  | .ok sk, .ok pk =>
      if pk = genPub sk then .ok ⟨bs.take 64, sk, pk⟩
      else .error .serializationError
  | _, _ => .error .serializationError

/-- Modelled from the spec: the client's password envelope — a nonce plus an
authentication tag binding the client's static key material to the
password-derived key. -/
structure Envelope where
  nonce : Bytes
  tag : Bytes
deriving DecidableEq

/-- Modelled from the spec: the per-user password file — envelope, client
static public key, and the server static public key captured at registration
time. -/
structure ServerRegistration where
  envelope : Envelope
  clientPk : Elem
  serverPk : Elem
deriving DecidableEq

/-- Modelled from the spec: a password file serializes as
`client_pk (32) ‖ server_pk (32) ‖ envelope nonce (32) ‖ envelope tag (64)`. -/
def ServerRegistration.serialize (r : ServerRegistration) : Bytes :=
  enc32 r.clientPk.val ++ (enc32 r.serverPk.val ++
    (r.envelope.nonce ++ r.envelope.tag))

/-- Modelled from the spec: deserialization of a password file; wrong length
is a `SizeError`, an invalid group-element encoding a `SerializationError`. -/
def ServerRegistration.deserialize (bs : Bytes) :
    Except Error ServerRegistration :=
  if bs.length ≠ 160 then .error .sizeError else
  match readNZ (bs.take 32), readNZ ((bs.drop 32).take 32) with
  | .ok cpk, .ok spk =>
      .ok ⟨⟨(bs.drop 64).take 32, bs.drop 96⟩, cpk, spk⟩
  | _, _ => .error .serializationError

/-- Modelled from the spec: ephemeral client registration state — OPRF
blinding scalar and the password, with a consumed flag. -/
structure ClientRegistrationState where
  blind : Scalar
  password : Bytes
  consumed : Bool
deriving DecidableEq

/-- Serialization of a client registration state (the consumed flag is not
persisted; states are serialized only between start and finish). -/
def ClientRegistrationState.serialize (s : ClientRegistrationState) : Bytes :=
  enc32 s.blind.val ++ s.password

/-- Deserialization of a client registration state. -/
def ClientRegistrationState.deserialize (bs : Bytes) :
    Except Error ClientRegistrationState :=
  if bs.length < 32 then .error .sizeError else
  match readNZ (bs.take 32) with
  | .ok r => .ok ⟨r, bs.drop 32, false⟩
  | .error e => .error e

/-- Modelled from the spec: ephemeral client login state — blinding scalar,
ephemeral AKE secret, the sent ke1 message, and a consumed flag. -/
structure ClientLoginState where
  blind : Scalar
  esk : Scalar
  ke1 : Bytes
  consumed : Bool
deriving DecidableEq

/-- Serialization of a client login state. -/
def ClientLoginState.serialize (s : ClientLoginState) : Bytes :=
  enc32 s.blind.val ++ (enc32 s.esk.val ++ s.ke1)

/-- Deserialization of a client login state. -/
def ClientLoginState.deserialize (bs : Bytes) :
    Except Error ClientLoginState :=
  if bs.length ≠ 128 then .error .sizeError else
  match readNZ (bs.take 32), readNZ ((bs.drop 32).take 32) with
  | .ok r, .ok e => .ok ⟨r, e, bs.drop 64, false⟩
  | _, _ => .error .serializationError

/-- Modelled from the spec: ephemeral server login state — the expected
client MAC, the session key, and a consumed flag. -/
structure ServerLoginState where
  expectedMac : Bytes
  sessionKey : Bytes
  consumed : Bool
deriving DecidableEq

/-- Serialization of a server login state. -/
def ServerLoginState.serialize (s : ServerLoginState) : Bytes :=
  s.expectedMac ++ s.sessionKey

/-- Deserialization of a server login state. -/
def ServerLoginState.deserialize (bs : Bytes) :
    Except Error ServerLoginState :=
  if bs.length ≠ 128 then .error .sizeError else
  .ok ⟨bs.take 64, bs.drop 64, false⟩

/-- Modelled from the spec: `client.start_registration` — rejects an empty
password (implementer choice documented by the spec), blinds it with a fresh
nonzero scalar, and returns the request bytes plus a fresh state. -/
def client_start_registration (pwd : Bytes) (rng : Nat) :
    Except Error (Bytes × ClientRegistrationState) :=
  if pwd = [] then .error .sizeError else
  let r := nonzeroScalar rng
  .ok (elemEnc (smul r (hashToGroup pwd)), ⟨r, pwd, false⟩)

/-- Modelled from the spec: `server.start_registration` — deserializes the
blinded element (rejecting malformed or identity encodings), derives the
per-user OPRF key from the seed and credential identifier, evaluates the
OPRF, and returns the response embedding the server's static public key. -/
def server_start_registration (setup : ServerSetup) (request cid : Bytes) :
    Except Error Bytes :=
  if request.length ≠ 32 then .error .sizeError else
  match readNZ request with
  | .error e => .error e
  | .ok blinded =>
      .ok (elemEnc (smul (oprfKeyOf setup.oprfSeed cid) blinded) ++
        elemEnc setup.pk)

/-- Registration upload built by the client: client public key, server public
key, envelope nonce and envelope tag. -/
def regUpload (rps nR : Nat) (spk : Elem) (idsOpt : Option IdPair) : Bytes :=
  let nonce := enc32 nR
  let cpk := genPub (deriveSk rps nonce)
  let ids := idsOpt.getD (elemEnc cpk, elemEnc spk)
  enc32 cpk.val ++ (enc32 spk.val ++ (nonce ++ sealTag rps nonce spk ids cpk))

/-- Modelled from the spec: `client.finish_registration` — a consumed state is
an `InvalidStateError`; malformed input is rejected (`SizeError` /
`SerializationError`) leaving the state unconsumed; otherwise the state is
consumed, the response unblinded, the result stretched, and an envelope sealed
around a derived client static key pair, returning the upload bytes and the
export key. -/
def client_finish_registration (st : ClientRegistrationState) (pwd : Bytes)
    (response : Bytes) (ps : ClientRegistrationFinishParameters) (nR : Nat) :
    Except Error (Bytes × Bytes) × ClientRegistrationState :=
  if st.consumed then (.error .invalidState, st) else
  if response.length ≠ 64 then (.error .sizeError, st) else
  match readNZ (response.take 32), readNZ (response.drop 32) with
  | .ok evaluated, .ok spk =>
      let rps := stretch ps.ksf (oprfFinalize pwd (smul st.blind⁻¹ evaluated))
      ((.ok (regUpload rps nR spk ps.identifiers, exportKeyOf rps (enc32 nR))),
        { st with consumed := true })
  | _, _ => (.error .serializationError, st)

/-- Modelled from the spec: `server.finish_registration` — pure parsing of the
upload into a password file; no secret comparison occurs. -/
def server_finish_registration (upload : Bytes) :
    Except Error ServerRegistration :=
  ServerRegistration.deserialize upload

/-- Modelled from the spec: `client.start_login` — rejects an empty password,
blinds it, generates an ephemeral AKE key pair and returns ke1 plus a fresh
login state. -/
def client_start_login (pwd : Bytes) (rBlind rEsk : Nat) :
    Except Error (Bytes × ClientLoginState) :=
  if pwd = [] then .error .sizeError else
  let r := nonzeroScalar rBlind
  let e := nonzeroScalar rEsk
  let ke1 := elemEnc (smul r (hashToGroup pwd)) ++ elemEnc (genPub e)
  .ok (ke1, ⟨r, e, ke1, false⟩)

/-- Core of a ke2 message (everything but the trailing server MAC):
`evaluated (32) ‖ envelope nonce (32) ‖ envelope tag (64) ‖ server_pk (32) ‖
server ephemeral pk (32)`. -/
def buildKe2core (ev : Elem) (env : Envelope) (spk sepk : Elem) : Bytes :=
  enc32 ev.val ++ (env.nonce ++ (env.tag ++
    (enc32 spk.val ++ enc32 sepk.val)))

/-- Modelled from the spec: the deterministic fake password file substituted
for an unknown user, derived from the server setup and the credential
identifier alone. -/
def fakeRecord (setup : ServerSetup) (cid : Bytes) : ServerRegistration :=
  let seedN := packL setup.oprfSeed
  { envelope :=
      { nonce := enc32 (Nat.pair 14 (Nat.pair seedN (packL cid)))
        tag := hashOut (Nat.pair 15 (Nat.pair seedN (packL cid))) }
    clientPk := genPub (nonzeroScalar (Nat.pair 16 (Nat.pair seedN (packL cid))))
    serverPk := setup.pk }

/-- Modelled from the spec: `server.start_login` — parses ke1, substitutes the
deterministic fake record when the password file is absent, evaluates the
OPRF, performs its half of the triple Diffie-Hellman exchange and returns ke2
plus a fresh server login state holding the expected client MAC and the
session key. -/
def server_start_login (setup : ServerSetup) (file? : Option ServerRegistration)
    (ke1 cid : Bytes) (ps : ServerLoginParameters) (rEsk : Nat) :
    Except Error (Bytes × ServerLoginState) :=
  if ke1.length ≠ 64 then .error .sizeError else
  match readNZ (ke1.take 32), readNZ (ke1.drop 32) with
  | .ok blinded, .ok cepk =>
      let file := file?.getD (fakeRecord setup cid)
      let evaluated := smul (oprfKeyOf setup.oprfSeed cid) blinded
      let se := nonzeroScalar rEsk
      let ke2core := buildKe2core evaluated file.envelope file.serverPk (genPub se)
      let ids := ps.identifiers.getD (elemEnc file.clientPk, elemEnc file.serverPk)
      let th := transcriptHash ps.context ids ke1 ke2core
      let ake := akeSecret (smul se cepk) (smul setup.sk cepk)
        (smul se file.clientPk) th
      let smac := macF (km2Of ake) th
      .ok (ke2core ++ smac,
        ⟨macF (km3Of ake) (Nat.pair th (packL smac)), sessionKeyOf ake, false⟩)
  | _, _ => .error .serializationError

/-- Modelled from the spec: `client.finish_login` — a consumed state is an
`InvalidStateError`; a wrong-length ke2 is a `SizeError` detected before any
structural validation, leaving the state unconsumed; structurally invalid
encodings are a `SerializationError` leaving the state unconsumed; otherwise
the state is consumed, the envelope is opened and the server MAC verified
(both failing closed with the same generic `InvalidLoginError`), and ke3, the
session key, the export key and the server's static public key are
returned. -/
def client_finish_login (st : ClientLoginState) (pwd ke2 : Bytes)
    (ps : ClientLoginFinishParameters) :
    Except Error (Bytes × Bytes × Bytes × Bytes) × ClientLoginState :=
  if st.consumed then (.error .invalidState, st) else
  if ke2.length ≠ 256 then (.error .sizeError, st) else
  match readNZ (ke2.take 32), readNZ ((ke2.drop 128).take 32),
      readNZ ((ke2.drop 160).take 32) with
  | .ok evaluated, .ok spk, .ok sepk =>
      let st' := { st with consumed := true }
      let nonce := (ke2.drop 32).take 32
      let tag := (ke2.drop 64).take 64
      let smac := ke2.drop 192
      let rps := stretch ps.ksf (oprfFinalize pwd (smul st.blind⁻¹ evaluated))
      let csk := deriveSk rps nonce
      let cpk := genPub csk
      let ids := ps.identifiers.getD (elemEnc cpk, elemEnc spk)
      if sealTag rps nonce spk ids cpk ≠ tag then (.error .invalidLogin, st')
      else
        let th := transcriptHash ps.context ids st.ke1 (ke2.take 192)
        let ake := akeSecret (smul st.esk sepk) (smul st.esk spk)
          (smul csk sepk) th
        if macF (km2Of ake) th ≠ smac then (.error .invalidLogin, st')
        else
          (.ok (macF (km3Of ake) (Nat.pair th (packL smac)),
            sessionKeyOf ake, exportKeyOf rps nonce, elemEnc spk), st')
  | _, _, _ => (.error .serializationError, st)

/-- Modelled from the spec: `server.finish_login` — a consumed state is an
`InvalidStateError`; a wrong-length ke3 is a `SizeError` leaving the state
unconsumed; otherwise the client MAC is verified against the held transcript
MAC (consuming the state either way) and the session key returned. -/
def server_finish_login (st : ServerLoginState) (ke3 : Bytes)
    (_ps : ServerLoginParameters) : Except Error Bytes × ServerLoginState :=
  if st.consumed then (.error .invalidState, st) else
  if ke3.length ≠ 64 then (.error .sizeError, st) else
  if ke3 = st.expectedMac then (.ok st.sessionKey, { st with consumed := true })
  else (.error .invalidLogin, { st with consumed := true })

/-- Modelled from the spec: `verify_server_public_key` — comparison of two
public-key byte strings, `InvalidLoginError` on mismatch. -/
def verify_server_public_key (expected actual : Bytes) : Except Error Unit :=
  if expected = actual then .ok () else .error .invalidLogin

/-- Composition of the full registration-then-login flow exactly as the test
suite runs it, returning the client session key, server session key, export
key and server static public key bytes. -/
def runFullFlow (pwd cid : Bytes) (seedR skR rReg nR rLog eR sR : Nat) :
    Except Error (Bytes × Bytes × Bytes × Bytes) :=
  let setup := ServerSetup.create seedR skR
  match client_start_registration pwd rReg with
  | .error e => .error e
  | .ok (req, rst) =>
  match server_start_registration setup req cid with
  | .error e => .error e
  | .ok resp =>
  match (client_finish_registration rst pwd resp {} nR).1 with
  | .error e => .error e
  | .ok (upload, _ek) =>
  match server_finish_registration upload with
  | .error e => .error e
  | .ok file =>
  match client_start_login pwd rLog eR with
  | .error e => .error e
  | .ok (ke1, lst) =>
  match server_start_login setup (some file) ke1 cid {} sR with
  | .error e => .error e
  | .ok (ke2, sst) =>
  match (client_finish_login lst pwd ke2 {}).1 with
  | .error e => .error e
  | .ok (ke3, sessionC, exportK, spkBytes) =>
  match (server_finish_login sst ke3 {}).1 with
  | .error e => .error e
  | .ok sessionS => .ok (sessionC, sessionS, exportK, spkBytes)

/-- Modelled from the spec: the base64url alphabet — sextet value to ASCII
code (A-Z, a-z, 0-9, minus, underscore). -/
def sextetToCode (n : Nat) : Nat :=
  if n < 26 then 65 + n
  else if n < 52 then 97 + (n - 26)
  else if n < 62 then 48 + (n - 52)
  else if n = 62 then 45 else 95

/-- Modelled from the spec: ASCII code back to sextet value; `none` on a
character outside the base64url alphabet. -/
def codeToSextet (c : Nat) : Option Nat :=
  if 65 ≤ c ∧ c ≤ 90 then some (c - 65)
  else if 97 ≤ c ∧ c ≤ 122 then some (c - 97 + 26)
  else if 48 ≤ c ∧ c ≤ 57 then some (c - 48 + 52)
  else if c = 45 then some 62
  else if c = 95 then some 63
  else none

/-- Modelled from the spec: `encode_b64` — unpadded base64url encoding of a
byte string, three bytes to four characters (returned as ASCII codes). -/
def encode_b64 : List Nat → List Nat
  | [] => []
  | [b1] => [sextetToCode (b1 / 4), sextetToCode (b1 % 4 * 16)]
  | [b1, b2] => [sextetToCode (b1 / 4), sextetToCode (b1 % 4 * 16 + b2 / 16),
      sextetToCode (b2 % 16 * 4)]
  | b1 :: b2 :: b3 :: rest =>
      sextetToCode (b1 / 4) :: sextetToCode (b1 % 4 * 16 + b2 / 16) ::
      sextetToCode (b2 % 16 * 4 + b3 / 64) :: sextetToCode (b3 % 64) ::
      encode_b64 rest

/-- Base64url decoding of a padding-stripped character list; `none` on any
invalid character or an impossible length. -/
def decodeCore : List Nat → Option (List Nat)
  | [] => some []
  | [_] => none
  | [c1, c2] =>
      match codeToSextet c1, codeToSextet c2 with
      | some s1, some s2 => some [s1 * 4 + s2 / 16]
      | _, _ => none
  | [c1, c2, c3] =>
      match codeToSextet c1, codeToSextet c2, codeToSextet c3 with
      | some s1, some s2, some s3 =>
          some [s1 * 4 + s2 / 16, s2 % 16 * 16 + s3 / 4]
      | _, _, _ => none
  | c1 :: c2 :: c3 :: c4 :: rest =>
      match codeToSextet c1, codeToSextet c2, codeToSextet c3, codeToSextet c4,
          decodeCore rest with
      | some s1, some s2, some s3, some s4, some bs =>
          some ((s1 * 4 + s2 / 16) :: (s2 % 16 * 16 + s3 / 4) ::
            (s3 % 4 * 64 + s4) :: bs)
      | _, _, _, _, _ => none

/-- Removal of trailing padding characters (ASCII 61, the equals sign). -/
def stripPad (s : List Nat) : List Nat :=
  (s.reverse.dropWhile (fun c => c == 61)).reverse

/-- Modelled from the spec: `decode_b64` — accepts padded and unpadded
base64url input; any input that is not base64url fails with
`SerializationError`. -/
def decode_b64 (s : List Nat) : Except Error (List Nat) :=
  match decodeCore (stripPad s) with
  | some bs => .ok bs
  | none => .error .serializationError

/-- Inputs of one complete registration-then-login run: password, credential
identifier, and the randomness seeds of every sampling step. -/
structure FlowIn where
  pwd : Bytes
  cid : Bytes
  seedR : Nat
  skR : Nat
  rReg : Nat
  nR : Nat
  rLog : Nat
  eR : Nat
  sR : Nat

/-- Expected server setup of a flow. -/
def fSetup (i : FlowIn) : ServerSetup := ServerSetup.create i.seedR i.skR

/-- Expected per-user OPRF key of a flow. -/
def fK (i : FlowIn) : Scalar := oprfKeyOf (fSetup i).oprfSeed i.cid

/-- Expected registration blinding scalar. -/
def fBlind1 (i : FlowIn) : Scalar := nonzeroScalar i.rReg

/-- Expected registration request. -/
def fReq (i : FlowIn) : Bytes :=
  elemEnc (smul (fBlind1 i) (hashToGroup i.pwd))

/-- Expected client registration state. -/
def fRst (i : FlowIn) : ClientRegistrationState := ⟨fBlind1 i, i.pwd, false⟩

/-- Expected registration response. -/
def fResp (i : FlowIn) : Bytes :=
  elemEnc (smul (fK i) (smul (fBlind1 i) (hashToGroup i.pwd))) ++
    elemEnc (fSetup i).pk

/-- Expected randomized password (OPRF output) of a flow. -/
def fRp (i : FlowIn) : Nat :=
  oprfFinalize i.pwd (smul (fK i) (hashToGroup i.pwd))

/-- Expected stretched randomized password. -/
def fRps (i : FlowIn) : Nat := stretch .standard (fRp i)

/-- Expected envelope nonce. -/
def fNonce (i : FlowIn) : Bytes := enc32 i.nR

/-- Expected client static secret key. -/
def fCsk (i : FlowIn) : Scalar := deriveSk (fRps i) (fNonce i)

/-- Expected client static public key. -/
def fCpk (i : FlowIn) : Elem := genPub (fCsk i)

/-- Expected default identifiers (the two static public keys). -/
def fIds (i : FlowIn) : IdPair := (elemEnc (fCpk i), elemEnc (fSetup i).pk)

/-- Expected envelope tag. -/
def fTag (i : FlowIn) : Bytes :=
  sealTag (fRps i) (fNonce i) (fSetup i).pk (fIds i) (fCpk i)

/-- Expected registration upload. -/
def fUpload (i : FlowIn) : Bytes := regUpload (fRps i) i.nR (fSetup i).pk none

/-- Expected export key. -/
def fEk (i : FlowIn) : Bytes := exportKeyOf (fRps i) (fNonce i)

/-- Expected password file. -/
def fFile (i : FlowIn) : ServerRegistration :=
  ⟨⟨fNonce i, fTag i⟩, fCpk i, (fSetup i).pk⟩

/-- Expected login blinding scalar. -/
def fBlind2 (i : FlowIn) : Scalar := nonzeroScalar i.rLog

/-- Expected client ephemeral secret. -/
def fEsk (i : FlowIn) : Scalar := nonzeroScalar i.eR

/-- Expected ke1 message for a login attempted with password `p2`. -/
def fKe1 (i : FlowIn) (p2 : Bytes) : Bytes :=
  elemEnc (smul (fBlind2 i) (hashToGroup p2)) ++ elemEnc (genPub (fEsk i))

/-- Expected client login state for a login attempted with password `p2`. -/
def fLst (i : FlowIn) (p2 : Bytes) : ClientLoginState :=
  ⟨fBlind2 i, fEsk i, fKe1 i p2, false⟩

/-- Expected server ephemeral secret. -/
def fSe (i : FlowIn) : Scalar := nonzeroScalar i.sR

/-- Expected evaluated OPRF element at login with password `p2`. -/
def fEv2 (i : FlowIn) (p2 : Bytes) : Elem :=
  smul (fK i) (smul (fBlind2 i) (hashToGroup p2))

/-- Expected ke2 core at login with password `p2`. -/
def fKe2core (i : FlowIn) (p2 : Bytes) : Bytes :=
  buildKe2core (fEv2 i p2) ⟨fNonce i, fTag i⟩ (fSetup i).pk (genPub (fSe i))

/-- Expected transcript hash at login with password `p2`. -/
def fTh (i : FlowIn) (p2 : Bytes) : Nat :=
  transcriptHash [] (fIds i) (fKe1 i p2) (fKe2core i p2)

/-- Expected AKE secret at login with password `p2` (server orientation). -/
def fAke (i : FlowIn) (p2 : Bytes) : Nat :=
  akeSecret (smul (fSe i) (genPub (fEsk i))) (smul (fSetup i).sk (genPub (fEsk i)))
    (smul (fSe i) (fCpk i)) (fTh i p2)

/-- Expected server MAC at login with password `p2`. -/
def fSmac (i : FlowIn) (p2 : Bytes) : Bytes :=
  macF (km2Of (fAke i p2)) (fTh i p2)

/-- Expected ke2 message at login with password `p2`. -/
def fKe2 (i : FlowIn) (p2 : Bytes) : Bytes := fKe2core i p2 ++ fSmac i p2

/-- Expected ke3 message at login with password `p2`. -/
def fKe3 (i : FlowIn) (p2 : Bytes) : Bytes :=
  macF (km3Of (fAke i p2)) (Nat.pair (fTh i p2) (packL (fSmac i p2)))

/-- Expected server login state at login with password `p2`. -/
def fSst (i : FlowIn) (p2 : Bytes) : ServerLoginState :=
  ⟨fKe3 i p2, sessionKeyOf (fAke i p2), false⟩

/-- Increment of the leading cell of a byte string (used to exhibit a
tampered MAC). -/
def bumpHead (bs : Bytes) : Bytes := (bs.headD 0 + 1) :: bs.tail

/-- Modelled from the spec: the propagation policy — every operation returns
normally or with exactly one of the four error kinds; there is no other
outcome. -/
def isTaxonomy {α : Type} (r : Except Error α) : Prop :=
  (∃ a, r = .ok a) ∨ r = .error .invalidLogin ∨ r = .error .invalidState ∨
    r = .error .serializationError ∨ r = .error .sizeError

theorem codeToSextet_sextetToCode : ∀ n < 64,
    codeToSextet (sextetToCode n) = some n := by
  decide

theorem sextetToCode_ne_61 (n : Nat) : sextetToCode n ≠ 61 := by
  unfold sextetToCode
  split <;> try split
  all_goals first | omega | (split <;> try split) <;> omega

theorem encode_b64_ne_61 : ∀ x : List Nat, ∀ c ∈ encode_b64 x, c ≠ 61 := by
  intro x
  induction x using encode_b64.induct with
  | case1 => simp [encode_b64]
  | case2 b1 =>
      simp only [encode_b64, List.mem_cons, List.not_mem_nil, or_false]
      rintro c (rfl | rfl) <;> exact sextetToCode_ne_61 _
  | case3 b1 b2 =>
      simp only [encode_b64, List.mem_cons, List.not_mem_nil, or_false]
      rintro c (rfl | rfl | rfl) <;> exact sextetToCode_ne_61 _
  | case4 b1 b2 b3 rest ih =>
      simp only [encode_b64, List.mem_cons]
      rintro c (rfl | rfl | rfl | rfl | hc)
      · exact sextetToCode_ne_61 _
      · exact sextetToCode_ne_61 _
      · exact sextetToCode_ne_61 _
      · exact sextetToCode_ne_61 _
      · exact ih c hc

theorem decodeCore_encode {x : List Nat} (h : ∀ b ∈ x, b < 256) :
    decodeCore (encode_b64 x) = some x := by
  induction x using encode_b64.induct with
  | case1 => simp [encode_b64, decodeCore]
  | case2 b1 =>
      have hb1 : b1 < 256 := h b1 (by simp)
      have e1 : b1 / 4 * 4 + b1 % 4 * 16 / 16 = b1 := by omega
      simp only [encode_b64, decodeCore,
        codeToSextet_sextetToCode (b1 / 4) (by omega),
        codeToSextet_sextetToCode (b1 % 4 * 16) (by omega), e1]
  | case3 b1 b2 =>
      have hb1 : b1 < 256 := h b1 (by simp)
      have hb2 : b2 < 256 := h b2 (by simp)
      have e1 : b1 / 4 * 4 + (b1 % 4 * 16 + b2 / 16) / 16 = b1 := by omega
      have e2 : (b1 % 4 * 16 + b2 / 16) % 16 * 16 + b2 % 16 * 4 / 4 = b2 := by
        omega
      simp only [encode_b64, decodeCore,
        codeToSextet_sextetToCode (b1 / 4) (by omega),
        codeToSextet_sextetToCode (b1 % 4 * 16 + b2 / 16) (by omega),
        codeToSextet_sextetToCode (b2 % 16 * 4) (by omega), e1, e2]
  | case4 b1 b2 b3 rest ih =>
      have hb1 : b1 < 256 := h b1 (by simp)
      have hb2 : b2 < 256 := h b2 (by simp)
      have hb3 : b3 < 256 := h b3 (by simp)
      have hrest : ∀ b ∈ rest, b < 256 := fun b hb => h b (by simp [hb])
      have e1 : b1 / 4 * 4 + (b1 % 4 * 16 + b2 / 16) / 16 = b1 := by omega
      have e2 : (b1 % 4 * 16 + b2 / 16) % 16 * 16 +
          (b2 % 16 * 4 + b3 / 64) / 4 = b2 := by omega
      have e3 : (b2 % 16 * 4 + b3 / 64) % 4 * 64 + b3 % 64 = b3 := by omega
      simp only [encode_b64, decodeCore,
        codeToSextet_sextetToCode (b1 / 4) (by omega),
        codeToSextet_sextetToCode (b1 % 4 * 16 + b2 / 16) (by omega),
        codeToSextet_sextetToCode (b2 % 16 * 4 + b3 / 64) (by omega),
        codeToSextet_sextetToCode (b3 % 64) (by omega), ih hrest, e1, e2, e3]

theorem dropWhile61_eq_self {l : List Nat} (h : ∀ c ∈ l, c ≠ 61) :
    l.dropWhile (fun c => c == 61) = l := by
  cases l with
  | nil => rfl
  | cons a t =>
      have : (a == 61) = false := beq_eq_false_iff_ne.mpr (h a (by simp))
      simp [List.dropWhile, this]

theorem stripPad_encode (x : List Nat) : stripPad (encode_b64 x) = encode_b64 x := by
  unfold stripPad
  rw [dropWhile61_eq_self, List.reverse_reverse]
  intro c hc
  exact encode_b64_ne_61 x c (List.mem_reverse.mp hc)

theorem dropWhile61_replicate_append (k : Nat) (t : List Nat) :
    (List.replicate k 61 ++ t).dropWhile (fun c => c == 61) =
      t.dropWhile (fun c => c == 61) := by
  induction k with
  | zero => simp
  | succ n ih =>
      rw [List.replicate_succ, List.cons_append, List.dropWhile]
      simp only [beq_self_eq_true, ih]

theorem stripPad_encode_pad (x : List Nat) (k : Nat) :
    stripPad (encode_b64 x ++ List.replicate k 61) = encode_b64 x := by
  unfold stripPad
  rw [List.reverse_append, List.reverse_replicate, dropWhile61_replicate_append,
    dropWhile61_eq_self, List.reverse_reverse]
  intro c hc
  exact encode_b64_ne_61 x c (List.mem_reverse.mp hc)

theorem packL_injective : ∀ {a b : List Nat}, packL a = packL b → a = b := by
  intro a
  induction a with
  | nil =>
      intro b h
      cases b with
      | nil => rfl
      | cons y t => simp [packL] at h
  | cons x s ih =>
      intro b h
      cases b with
      | nil => simp [packL] at h
      | cons y t =>
          simp only [packL, Nat.add_right_cancel_iff] at h
          obtain ⟨h1, h2⟩ := Nat.pair_eq_pair.mp h
          rw [h1, ih h2]

theorem length_enc32 (n : Nat) : (enc32 n).length = 32 := by
  simp [enc32]

theorem length_hashOut (n : Nat) : (hashOut n).length = 64 := by
  simp [hashOut]

theorem length_elemEnc (x : Elem) : (elemEnc x).length = 32 := by
  simp [elemEnc, enc32]

theorem take_len_append (a b : Bytes) {n : Nat} (h : a.length = n) :
    (a ++ b).take n = a := by
  subst h
  simp

theorem drop_len_append (a b : Bytes) {n : Nat} (h : a.length = n) :
    (a ++ b).drop n = b := by
  subst h
  simp

theorem natCast_val_self (x : ZMod P) : ((x.val : Nat) : ZMod P) = x :=
  ZMod.natCast_rightInverse x

theorem readField_enc32 (n : Nat) : readField (enc32 n) = n := rfl

theorem readNZ_enc32_val {x : Elem} (hx : x ≠ 0) :
    readNZ (enc32 x.val) = .ok x := by
  have hval : x.val ≠ 0 := fun h0 => hx (by
    have := natCast_val_self x
    rw [h0] at this
    simpa using this.symm)
  simp [readNZ, readField_enc32, ZMod.val_lt x, hval, natCast_val_self]

theorem readNZ_elemEnc {x : Elem} (hx : x ≠ 0) : readNZ (elemEnc x) = .ok x :=
  readNZ_enc32_val hx

theorem readScalar_enc32_val (x : Scalar) : readScalar (enc32 x.val) = .ok x := by
  simp [readScalar, readField_enc32, ZMod.val_lt x, natCast_val_self]

theorem replicate32_eq_enc32 : List.replicate 32 0 = enc32 0 := by
  simp [enc32, List.replicate_succ]

theorem readScalar_zeros : readScalar (List.replicate 32 0) = .ok 0 := by
  rw [replicate32_eq_enc32]
  have : (0 : Scalar).val = 0 := rfl
  simpa [this] using readScalar_enc32_val (0 : Scalar)

theorem nonzeroScalar_ne_zero (n : Nat) : nonzeroScalar n ≠ 0 := by
  unfold nonzeroScalar
  split
  · exact one_ne_zero
  · rename_i h
    intro h0
    have hlt : n % P < P := Nat.mod_lt _ (by norm_num [P])
    have : ((n % P : Nat) : Scalar).val = n % P := ZMod.val_cast_of_lt hlt
    rw [h0] at this
    exact h this.symm

theorem hashToGroup_ne_zero (pwd : Bytes) : hashToGroup pwd ≠ 0 :=
  nonzeroScalar_ne_zero _

theorem oprfKeyOf_ne_zero (seed cid : Bytes) : oprfKeyOf seed cid ≠ 0 :=
  nonzeroScalar_ne_zero _

theorem deriveSk_ne_zero (rps : Nat) (nonce : Bytes) : deriveSk rps nonce ≠ 0 :=
  nonzeroScalar_ne_zero _

theorem genPub_eq (a : Scalar) : genPub a = a := by
  simp [genPub, smul]

theorem genPub_ne_zero {a : Scalar} (h : a ≠ 0) : genPub a ≠ 0 := by
  rw [genPub_eq]
  exact h

theorem smul_ne_zero_of {a : Scalar} {x : Elem} (ha : a ≠ 0) (hx : x ≠ 0) :
    smul a x ≠ 0 := by
  simp only [smul]
  exact mul_ne_zero ha hx

theorem unblind_cancel (r k h : Scalar) (hr : r ≠ 0) :
    smul r⁻¹ (smul k (smul r h)) = smul k h := by
  simp only [smul]
  field_simp
  ring

theorem hashOut_inj {a b : Nat} (h : hashOut a = hashOut b) : a = b := by
  simpa [hashOut] using h

theorem sealTag_eq_rps {r1 r2 : Nat} {n1 n2 : Bytes} {s1 s2 : Elem}
    {i1 i2 : IdPair} {c1 c2 : Elem}
    (h : sealTag r1 n1 s1 i1 c1 = sealTag r2 n2 s2 i2 c2) : r1 = r2 := by
  have := hashOut_inj h
  have := (Nat.pair_eq_pair.mp this).2
  exact (Nat.pair_eq_pair.mp this).1

theorem stretch_oprfFinalize_inj {k1 k2 : KeyStretching} {p1 p2 : Bytes}
    {y1 y2 : Elem}
    (h : stretch k1 (oprfFinalize p1 y1) = stretch k2 (oprfFinalize p2 y2)) :
    p1 = p2 := by
  simp only [stretch, oprfFinalize] at h
  have h1 := (Nat.pair_eq_pair.mp h).2
  have h2 := (Nat.pair_eq_pair.mp h1).2
  have h3 := (Nat.pair_eq_pair.mp h2).2
  exact packL_injective (Nat.pair_eq_pair.mp h3).1

theorem drop_block (a b : Bytes) {n : Nat} (h : a.length = n) (m : Nat) :
    (a ++ b).drop (n + m) = b.drop m := by
  subst h
  exact List.drop_append m

theorem setup_pk_ne_zero (i : FlowIn) : (fSetup i).pk ≠ 0 := by
  simp only [fSetup, ServerSetup.create]
  exact genPub_ne_zero (nonzeroScalar_ne_zero _)

theorem step1 (i : FlowIn) (h : i.pwd ≠ []) :
    client_start_registration i.pwd i.rReg = .ok (fReq i, fRst i) := by
  simp [client_start_registration, h, fReq, fRst, fBlind1]

theorem step2 (i : FlowIn) :
    server_start_registration (fSetup i) (fReq i) i.cid = .ok (fResp i) := by
  have hb : smul (fBlind1 i) (hashToGroup i.pwd) ≠ 0 :=
    smul_ne_zero_of (nonzeroScalar_ne_zero _) (hashToGroup_ne_zero _)
  simp [server_start_registration, fReq, fResp, fK, length_elemEnc,
    readNZ_elemEnc hb]

theorem step3 (i : FlowIn) :
    client_finish_registration (fRst i) i.pwd (fResp i) {} i.nR =
      (.ok (fUpload i, fEk i), ⟨fBlind1 i, i.pwd, true⟩) := by
  have hev : smul (fK i) (smul (fBlind1 i) (hashToGroup i.pwd)) ≠ 0 :=
    smul_ne_zero_of (oprfKeyOf_ne_zero _ _)
      (smul_ne_zero_of (nonzeroScalar_ne_zero _) (hashToGroup_ne_zero _))
  have hspk : (fSetup i).pk ≠ 0 := setup_pk_ne_zero i
  have hcancel : smul (fBlind1 i)⁻¹
      (smul (fK i) (smul (fBlind1 i) (hashToGroup i.pwd))) =
      smul (fK i) (hashToGroup i.pwd) :=
    unblind_cancel _ _ _ (nonzeroScalar_ne_zero _)
  have hlen : (elemEnc (smul (fK i) (smul (fBlind1 i) (hashToGroup i.pwd)))).length
      = 32 := length_elemEnc _
  simp only [fResp, client_finish_registration, fRst]
  rw [take_len_append _ _ hlen, drop_len_append _ _ hlen,
    readNZ_elemEnc hev, readNZ_elemEnc hspk]
  simp only [List.length_append, length_elemEnc]
  rw [if_neg (by simp)]
  simp only [hcancel, fUpload, fEk, fRps, fRp, fNonce]
  rfl

theorem regUpload_parse (rps nR : Nat) {spk : Elem} (idsOpt : Option IdPair) :
    regUpload rps nR spk idsOpt =
      enc32 (genPub (deriveSk rps (enc32 nR))).val ++ (enc32 spk.val ++
        (enc32 nR ++ sealTag rps (enc32 nR) spk
          (idsOpt.getD (elemEnc (genPub (deriveSk rps (enc32 nR))), elemEnc spk))
          (genPub (deriveSk rps (enc32 nR))))) := by
  simp [regUpload]

theorem server_finish_registration_upload (rps nR : Nat) {spk : Elem}
    (hspk : spk ≠ 0) (idsOpt : Option IdPair) :
    server_finish_registration (regUpload rps nR spk idsOpt) =
      .ok ⟨⟨enc32 nR, sealTag rps (enc32 nR) spk
          (idsOpt.getD (elemEnc (genPub (deriveSk rps (enc32 nR))), elemEnc spk))
          (genPub (deriveSk rps (enc32 nR)))⟩,
        genPub (deriveSk rps (enc32 nR)), spk⟩ := by
  have hcpk : genPub (deriveSk rps (enc32 nR)) ≠ 0 :=
    genPub_ne_zero (deriveSk_ne_zero _ _)
  rw [regUpload_parse]
  set cpkE := enc32 (genPub (deriveSk rps (enc32 nR))).val with hcpkE
  set spkE := enc32 spk.val with hspkE
  set tl := enc32 nR ++ sealTag rps (enc32 nR) spk
      (idsOpt.getD (elemEnc (genPub (deriveSk rps (enc32 nR))), elemEnc spk))
      (genPub (deriveSk rps (enc32 nR))) with htl
  have h1 : cpkE.length = 32 := length_enc32 _
  have h2 : spkE.length = 32 := length_enc32 _
  have hlen : (cpkE ++ (spkE ++ tl)).length = 160 := by
    simp only [List.length_append, h1, h2, htl, length_enc32]
    simp [sealTag, length_hashOut]
  have d32 : (cpkE ++ (spkE ++ tl)).drop 32 = spkE ++ tl :=
    drop_len_append _ _ h1
  have d64 : (cpkE ++ (spkE ++ tl)).drop 64 = tl := by
    have : (cpkE ++ (spkE ++ tl)).drop 64 = ((cpkE ++ (spkE ++ tl)).drop 32).drop 32 := by
      rw [List.drop_drop]
    rw [this, d32]
    exact drop_len_append _ _ h2
  have d96 : (cpkE ++ (spkE ++ tl)).drop 96 =
      sealTag rps (enc32 nR) spk
        (idsOpt.getD (elemEnc (genPub (deriveSk rps (enc32 nR))), elemEnc spk))
        (genPub (deriveSk rps (enc32 nR))) := by
    have : (cpkE ++ (spkE ++ tl)).drop 96 = ((cpkE ++ (spkE ++ tl)).drop 64).drop 32 := by
      rw [List.drop_drop]
    rw [this, d64, htl]
    exact drop_len_append _ _ (length_enc32 _)
  simp only [server_finish_registration, ServerRegistration.deserialize, hlen,
    ne_eq, not_true_eq_false, if_false, reduceIte]
  rw [take_len_append _ _ h1, d32, take_len_append _ _ h2,
    readNZ_enc32_val hcpk, readNZ_enc32_val hspk, d64,
    take_len_append _ _ (length_enc32 nR), d96]

theorem step4 (i : FlowIn) : server_finish_registration (fUpload i) = .ok (fFile i) := by
  rw [fUpload, server_finish_registration_upload _ _ (setup_pk_ne_zero i) none]
  simp only [fFile, fCpk, fCsk, fNonce, fTag, fIds, Option.getD_none]

theorem ke2_shape (ev : Elem) (env : Envelope) (spk sepk : Elem) (smac : Bytes) :
    buildKe2core ev env spk sepk ++ smac =
      enc32 ev.val ++ (env.nonce ++ (env.tag ++ (enc32 spk.val ++
        (enc32 sepk.val ++ smac)))) := by
  simp [buildKe2core]

theorem core_len (ev : Elem) (env : Envelope) (spk sepk : Elem)
    (hn : env.nonce.length = 32) (ht : env.tag.length = 64) :
    (buildKe2core ev env spk sepk).length = 192 := by
  simp [buildKe2core, hn, ht, length_enc32]

theorem ke2_len (ev : Elem) (env : Envelope) (spk sepk : Elem) (smac : Bytes)
    (hn : env.nonce.length = 32) (ht : env.tag.length = 64)
    (hs : smac.length = 64) :
    (buildKe2core ev env spk sepk ++ smac).length = 256 := by
  simp [List.length_append, core_len ev env spk sepk hn ht, hs]

theorem ke2_parse (ev : Elem) (env : Envelope) (spk sepk : Elem) (smac : Bytes)
    (hn : env.nonce.length = 32) (ht : env.tag.length = 64) :
    (buildKe2core ev env spk sepk ++ smac).take 32 = enc32 ev.val ∧
    ((buildKe2core ev env spk sepk ++ smac).drop 32).take 32 = env.nonce ∧
    ((buildKe2core ev env spk sepk ++ smac).drop 64).take 64 = env.tag ∧
    ((buildKe2core ev env spk sepk ++ smac).drop 128).take 32 = enc32 spk.val ∧
    ((buildKe2core ev env spk sepk ++ smac).drop 160).take 32 = enc32 sepk.val ∧
    (buildKe2core ev env spk sepk ++ smac).drop 192 = smac ∧
    (buildKe2core ev env spk sepk ++ smac).take 192 = buildKe2core ev env spk sepk := by
  have t192 : (buildKe2core ev env spk sepk ++ smac).take 192 =
      buildKe2core ev env spk sepk :=
    take_len_append _ _ (core_len ev env spk sepk hn ht)
  rw [ke2_shape]
  have hA : (enc32 ev.val).length = 32 := length_enc32 _
  have hS : (enc32 spk.val).length = 32 := length_enc32 _
  have hE : (enc32 sepk.val).length = 32 := length_enc32 _
  have d32 : (enc32 ev.val ++ (env.nonce ++ (env.tag ++ (enc32 spk.val ++
      (enc32 sepk.val ++ smac))))).drop 32 =
      env.nonce ++ (env.tag ++ (enc32 spk.val ++ (enc32 sepk.val ++ smac))) :=
    drop_len_append _ _ hA
  have d64 : (enc32 ev.val ++ (env.nonce ++ (env.tag ++ (enc32 spk.val ++
      (enc32 sepk.val ++ smac))))).drop 64 =
      env.tag ++ (enc32 spk.val ++ (enc32 sepk.val ++ smac)) := by
    have e : (enc32 ev.val ++ (env.nonce ++ (env.tag ++ (enc32 spk.val ++
        (enc32 sepk.val ++ smac))))).drop 64 =
        ((enc32 ev.val ++ (env.nonce ++ (env.tag ++ (enc32 spk.val ++
          (enc32 sepk.val ++ smac))))).drop 32).drop 32 := by
      rw [List.drop_drop]
    rw [e, d32]
    exact drop_len_append _ _ hn
  have d128 : (enc32 ev.val ++ (env.nonce ++ (env.tag ++ (enc32 spk.val ++
      (enc32 sepk.val ++ smac))))).drop 128 =
      enc32 spk.val ++ (enc32 sepk.val ++ smac) := by
    have e : (enc32 ev.val ++ (env.nonce ++ (env.tag ++ (enc32 spk.val ++
        (enc32 sepk.val ++ smac))))).drop 128 =
        ((enc32 ev.val ++ (env.nonce ++ (env.tag ++ (enc32 spk.val ++
          (enc32 sepk.val ++ smac))))).drop 64).drop 64 := by
      rw [List.drop_drop]
    rw [e, d64]
    exact drop_len_append _ _ ht
  have d160 : (enc32 ev.val ++ (env.nonce ++ (env.tag ++ (enc32 spk.val ++
      (enc32 sepk.val ++ smac))))).drop 160 = enc32 sepk.val ++ smac := by
    have e : (enc32 ev.val ++ (env.nonce ++ (env.tag ++ (enc32 spk.val ++
        (enc32 sepk.val ++ smac))))).drop 160 =
        ((enc32 ev.val ++ (env.nonce ++ (env.tag ++ (enc32 spk.val ++
          (enc32 sepk.val ++ smac))))).drop 128).drop 32 := by
      rw [List.drop_drop]
    rw [e, d128]
    exact drop_len_append _ _ hS
  have d192 : (enc32 ev.val ++ (env.nonce ++ (env.tag ++ (enc32 spk.val ++
      (enc32 sepk.val ++ smac))))).drop 192 = smac := by
    have e : (enc32 ev.val ++ (env.nonce ++ (env.tag ++ (enc32 spk.val ++
        (enc32 sepk.val ++ smac))))).drop 192 =
        ((enc32 ev.val ++ (env.nonce ++ (env.tag ++ (enc32 spk.val ++
          (enc32 sepk.val ++ smac))))).drop 160).drop 32 := by
      rw [List.drop_drop]
    rw [e, d160]
    exact drop_len_append _ _ hE
  refine ⟨take_len_append _ _ hA, ?_, ?_, ?_, ?_, d192, ?_⟩
  · rw [d32]
    exact take_len_append _ _ hn
  · rw [d64]
    exact take_len_append _ _ ht
  · rw [d128]
    exact take_len_append _ _ hS
  · rw [d160]
    exact take_len_append _ _ hE
  · rw [← ke2_shape]
    exact t192

theorem step5 (i : FlowIn) {p2 : Bytes} (h : p2 ≠ []) :
    client_start_login p2 i.rLog i.eR = .ok (fKe1 i p2, fLst i p2) := by
  simp [client_start_login, h, fKe1, fLst, fBlind2, fEsk]

theorem server_start_login_file (setup : ServerSetup) (file : ServerRegistration)
    {b c : Elem} (hb : b ≠ 0) (hc : c ≠ 0) (cid : Bytes)
    (ps : ServerLoginParameters) (rE : Nat) :
    server_start_login setup (some file) (elemEnc b ++ elemEnc c) cid ps rE =
      .ok (buildKe2core (smul (oprfKeyOf setup.oprfSeed cid) b) file.envelope
          file.serverPk (genPub (nonzeroScalar rE)) ++
          macF (km2Of (akeSecret (smul (nonzeroScalar rE) c) (smul setup.sk c)
            (smul (nonzeroScalar rE) file.clientPk)
            (transcriptHash ps.context
              (ps.identifiers.getD (elemEnc file.clientPk, elemEnc file.serverPk))
              (elemEnc b ++ elemEnc c)
              (buildKe2core (smul (oprfKeyOf setup.oprfSeed cid) b) file.envelope
                file.serverPk (genPub (nonzeroScalar rE))))))
            (transcriptHash ps.context
              (ps.identifiers.getD (elemEnc file.clientPk, elemEnc file.serverPk))
              (elemEnc b ++ elemEnc c)
              (buildKe2core (smul (oprfKeyOf setup.oprfSeed cid) b) file.envelope
                file.serverPk (genPub (nonzeroScalar rE)))),
        ⟨macF (km3Of (akeSecret (smul (nonzeroScalar rE) c) (smul setup.sk c)
            (smul (nonzeroScalar rE) file.clientPk)
            (transcriptHash ps.context
              (ps.identifiers.getD (elemEnc file.clientPk, elemEnc file.serverPk))
              (elemEnc b ++ elemEnc c)
              (buildKe2core (smul (oprfKeyOf setup.oprfSeed cid) b) file.envelope
                file.serverPk (genPub (nonzeroScalar rE))))))
          (Nat.pair
            (transcriptHash ps.context
              (ps.identifiers.getD (elemEnc file.clientPk, elemEnc file.serverPk))
              (elemEnc b ++ elemEnc c)
              (buildKe2core (smul (oprfKeyOf setup.oprfSeed cid) b) file.envelope
                file.serverPk (genPub (nonzeroScalar rE))))
            (packL (macF (km2Of (akeSecret (smul (nonzeroScalar rE) c)
                (smul setup.sk c) (smul (nonzeroScalar rE) file.clientPk)
                (transcriptHash ps.context
                  (ps.identifiers.getD (elemEnc file.clientPk, elemEnc file.serverPk))
                  (elemEnc b ++ elemEnc c)
                  (buildKe2core (smul (oprfKeyOf setup.oprfSeed cid) b) file.envelope
                    file.serverPk (genPub (nonzeroScalar rE))))))
              (transcriptHash ps.context
                (ps.identifiers.getD (elemEnc file.clientPk, elemEnc file.serverPk))
                (elemEnc b ++ elemEnc c)
                (buildKe2core (smul (oprfKeyOf setup.oprfSeed cid) b) file.envelope
                  file.serverPk (genPub (nonzeroScalar rE))))))),
          sessionKeyOf (akeSecret (smul (nonzeroScalar rE) c) (smul setup.sk c)
            (smul (nonzeroScalar rE) file.clientPk)
            (transcriptHash ps.context
              (ps.identifiers.getD (elemEnc file.clientPk, elemEnc file.serverPk))
              (elemEnc b ++ elemEnc c)
              (buildKe2core (smul (oprfKeyOf setup.oprfSeed cid) b) file.envelope
                file.serverPk (genPub (nonzeroScalar rE))))), false⟩) := by
  have hlb : (elemEnc b).length = 32 := length_elemEnc _
  simp only [server_start_login, List.length_append, length_elemEnc]
  rw [if_neg (by simp), take_len_append _ _ hlb, drop_len_append _ _ hlb,
    readNZ_elemEnc hb, readNZ_elemEnc hc]
  rfl

theorem step6 (i : FlowIn) (p2 : Bytes) :
    server_start_login (fSetup i) (some (fFile i)) (fKe1 i p2) i.cid {} i.sR =
      .ok (fKe2 i p2, fSst i p2) := by
  have hb : smul (fBlind2 i) (hashToGroup p2) ≠ 0 :=
    smul_ne_zero_of (nonzeroScalar_ne_zero _) (hashToGroup_ne_zero _)
  have hc : genPub (fEsk i) ≠ 0 := genPub_ne_zero (nonzeroScalar_ne_zero _)
  rw [fKe1, server_start_login_file (fSetup i) (fFile i) hb hc i.cid {} i.sR]
  rfl

theorem fTag_len (i : FlowIn) : (fTag i).length = 64 := by
  rw [fTag, sealTag]
  exact length_hashOut _

theorem fSmac_len (i : FlowIn) (p2 : Bytes) : (fSmac i p2).length = 64 := by
  rw [fSmac, macF]
  exact length_hashOut _

theorem fKe3_len (i : FlowIn) (p2 : Bytes) : (fKe3 i p2).length = 64 := by
  rw [fKe3, macF]
  exact length_hashOut _

theorem fRp_fold (i : FlowIn) :
    oprfFinalize i.pwd (smul (fK i) (hashToGroup i.pwd)) = fRp i := rfl

theorem fRps_fold (i : FlowIn) : stretch .standard (fRp i) = fRps i := rfl

theorem fCsk_fold (i : FlowIn) : deriveSk (fRps i) (fNonce i) = fCsk i := rfl

theorem fCpk_fold (i : FlowIn) : genPub (fCsk i) = fCpk i := rfl

theorem step7 (i : FlowIn) :
    client_finish_login (fLst i i.pwd) i.pwd (fKe2 i i.pwd) {} =
      (.ok (fKe3 i i.pwd, sessionKeyOf (fAke i i.pwd), fEk i,
        elemEnc (fSetup i).pk), ⟨fBlind2 i, fEsk i, fKe1 i i.pwd, true⟩) := by
  have hb2 : fBlind2 i ≠ 0 := nonzeroScalar_ne_zero _
  have hev : fEv2 i i.pwd ≠ 0 :=
    smul_ne_zero_of (oprfKeyOf_ne_zero _ _)
      (smul_ne_zero_of (nonzeroScalar_ne_zero _) (hashToGroup_ne_zero _))
  have hsepk : genPub (fSe i) ≠ 0 := genPub_ne_zero (nonzeroScalar_ne_zero _)
  obtain ⟨q1, q2, q3, q4, q5, q6, q7⟩ :=
    ke2_parse (fEv2 i i.pwd) ⟨fNonce i, fTag i⟩ (fSetup i).pk (genPub (fSe i))
      (fSmac i i.pwd) (length_enc32 _) (fTag_len i)
  have hlen : (buildKe2core (fEv2 i i.pwd) ⟨fNonce i, fTag i⟩ (fSetup i).pk
      (genPub (fSe i)) ++ fSmac i i.pwd).length = 256 :=
    ke2_len _ _ _ _ _ (length_enc32 _) (fTag_len i) (fSmac_len i i.pwd)
  have c1 : smul (fEsk i) (genPub (fSe i)) = smul (fSe i) (genPub (fEsk i)) := by
    simp only [smul, genPub]
    ring
  have c2 : smul (fEsk i) (fSetup i).pk = smul (fSetup i).sk (genPub (fEsk i)) := by
    simp only [smul, genPub, fSetup, ServerSetup.create]
    ring
  have c3 : smul (fCsk i) (genPub (fSe i)) = smul (fSe i) (fCpk i) := by
    simp only [smul, genPub, fCpk, fCsk]
    ring
  simp only [client_finish_login, fLst, fKe2, fKe2core]
  split
  · rename_i h
    simp at h
  split
  · rename_i h
    exact absurd hlen h
  rw [q1, q2, q3, q4, q5, q6, q7]
  rw [readNZ_enc32_val hev, readNZ_enc32_val (setup_pk_ne_zero i),
    readNZ_enc32_val hsepk]
  simp only [Option.getD_none]
  simp only [fEv2]
  rw [unblind_cancel (fBlind2 i) (fK i) (hashToGroup i.pwd) hb2]
  simp only [fRp_fold, fRps_fold, fCsk_fold, fCpk_fold]
  rw [c1, c2, c3]
  split
  · rename_i h
    exact absurd rfl h
  split
  · rename_i h
    exact absurd rfl h
  rfl

theorem step8 (i : FlowIn) (p2 : Bytes) :
    server_finish_login (fSst i p2) (fKe3 i p2) {} =
      (.ok (sessionKeyOf (fAke i p2)), ⟨fKe3 i p2, sessionKeyOf (fAke i p2), true⟩) := by
  simp only [server_finish_login, fSst]
  rw [if_neg (by simp), if_neg (by simp [fKe3_len i p2])]
  simp

theorem step7bad (i : FlowIn) {p2 : Bytes} (hne : p2 ≠ i.pwd) :
    client_finish_login (fLst i p2) p2 (fKe2 i p2) {} =
      (.error .invalidLogin, ⟨fBlind2 i, fEsk i, fKe1 i p2, true⟩) := by
  have hb2 : fBlind2 i ≠ 0 := nonzeroScalar_ne_zero _
  have hev : fEv2 i p2 ≠ 0 :=
    smul_ne_zero_of (oprfKeyOf_ne_zero _ _)
      (smul_ne_zero_of (nonzeroScalar_ne_zero _) (hashToGroup_ne_zero _))
  have hsepk : genPub (fSe i) ≠ 0 := genPub_ne_zero (nonzeroScalar_ne_zero _)
  obtain ⟨q1, q2, q3, q4, q5, q6, q7⟩ :=
    ke2_parse (fEv2 i p2) ⟨fNonce i, fTag i⟩ (fSetup i).pk (genPub (fSe i))
      (fSmac i p2) (length_enc32 _) (fTag_len i)
  have hlen : (buildKe2core (fEv2 i p2) ⟨fNonce i, fTag i⟩ (fSetup i).pk
      (genPub (fSe i)) ++ fSmac i p2).length = 256 :=
    ke2_len _ _ _ _ _ (length_enc32 _) (fTag_len i) (fSmac_len i p2)
  simp only [client_finish_login, fLst, fKe2, fKe2core]
  split
  · rename_i h
    simp at h
  split
  · rename_i h
    exact absurd hlen h
  rw [q1, q2, q3, q4, q5, q6, q7]
  rw [readNZ_enc32_val hev, readNZ_enc32_val (setup_pk_ne_zero i),
    readNZ_enc32_val hsepk]
  simp only [Option.getD_none]
  simp only [fEv2]
  rw [unblind_cancel (fBlind2 i) (fK i) (hashToGroup p2) hb2]
  split
  · rfl
  · rename_i h
    exfalso
    have heq := not_not.mp h
    exact hne (stretch_oprfFinalize_inj (sealTag_eq_rps heq))

theorem fIds_fold (i : FlowIn) :
    (elemEnc (fCpk i), elemEnc (fSetup i).pk) = fIds i := rfl

theorem fTag_fold (i : FlowIn) :
    sealTag (fRps i) (fNonce i) (fSetup i).pk (fIds i) (fCpk i) = fTag i := rfl

theorem fTh_fold (i : FlowIn) (p2 : Bytes) :
    transcriptHash [] (fIds i) (fKe1 i p2) (buildKe2core (fEv2 i p2)
      ⟨fNonce i, fTag i⟩ (fSetup i).pk (genPub (fSe i))) = fTh i p2 := rfl

theorem fAke_fold (i : FlowIn) (p2 : Bytes) :
    akeSecret (smul (fSe i) (genPub (fEsk i))) (smul (fSetup i).sk (genPub (fEsk i)))
      (smul (fSe i) (fCpk i)) (fTh i p2) = fAke i p2 := rfl

theorem fSmac_fold (i : FlowIn) (p2 : Bytes) :
    macF (km2Of (fAke i p2)) (fTh i p2) = fSmac i p2 := rfl

theorem hashOut_ne_bump (n : Nat) : hashOut n ≠ bumpHead (hashOut n) := by
  simp [hashOut, bumpHead]

theorem fSmac_ne_bump (i : FlowIn) (p2 : Bytes) :
    fSmac i p2 ≠ bumpHead (fSmac i p2) := by
  rw [fSmac, macF]
  exact hashOut_ne_bump _

theorem bumpHead_hashOut (n : Nat) : bumpHead (hashOut n) = hashOut (n + 1) := rfl

theorem bumpHead_hashOut_len (n : Nat) : (bumpHead (hashOut n)).length = 64 := by
  rw [bumpHead_hashOut]
  exact length_hashOut _

theorem step7tamper (i : FlowIn) :
    client_finish_login (fLst i i.pwd) i.pwd
      (fKe2core i i.pwd ++ bumpHead (fSmac i i.pwd)) {} =
      (.error .invalidLogin, ⟨fBlind2 i, fEsk i, fKe1 i i.pwd, true⟩) := by
  have hb2 : fBlind2 i ≠ 0 := nonzeroScalar_ne_zero _
  have hev : fEv2 i i.pwd ≠ 0 :=
    smul_ne_zero_of (oprfKeyOf_ne_zero _ _)
      (smul_ne_zero_of (nonzeroScalar_ne_zero _) (hashToGroup_ne_zero _))
  have hsepk : genPub (fSe i) ≠ 0 := genPub_ne_zero (nonzeroScalar_ne_zero _)
  have hs' : (bumpHead (fSmac i i.pwd)).length = 64 := by
    rw [fSmac, macF]
    exact bumpHead_hashOut_len _
  obtain ⟨q1, q2, q3, q4, q5, q6, q7⟩ :=
    ke2_parse (fEv2 i i.pwd) ⟨fNonce i, fTag i⟩ (fSetup i).pk (genPub (fSe i))
      (bumpHead (fSmac i i.pwd)) (length_enc32 _) (fTag_len i)
  have hlen : (buildKe2core (fEv2 i i.pwd) ⟨fNonce i, fTag i⟩ (fSetup i).pk
      (genPub (fSe i)) ++ bumpHead (fSmac i i.pwd)).length = 256 :=
    ke2_len _ _ _ _ _ (length_enc32 _) (fTag_len i) hs'
  simp only [client_finish_login, fLst, fKe2core]
  split
  · rename_i h
    simp at h
  split
  · rename_i h
    exact absurd hlen h
  rw [q1, q2, q3, q4, q5, q6, q7]
  rw [readNZ_enc32_val hev, readNZ_enc32_val (setup_pk_ne_zero i),
    readNZ_enc32_val hsepk]
  simp only [Option.getD_none]
  have hcancel : smul (fBlind2 i)⁻¹ (fEv2 i i.pwd) = smul (fK i) (hashToGroup i.pwd) :=
    unblind_cancel (fBlind2 i) (fK i) (hashToGroup i.pwd) hb2
  rw [hcancel]
  simp only [fRp_fold, fRps_fold, fCsk_fold, fCpk_fold]
  have c1 : smul (fEsk i) (genPub (fSe i)) = smul (fSe i) (genPub (fEsk i)) := by
    simp only [smul, genPub]
    ring
  have c2 : smul (fEsk i) (fSetup i).pk = smul (fSetup i).sk (genPub (fEsk i)) := by
    simp only [smul, genPub, fSetup, ServerSetup.create]
    ring
  have c3 : smul (fCsk i) (genPub (fSe i)) = smul (fSe i) (fCpk i) := by
    simp only [smul, genPub, fCpk, fCsk]
    ring
  rw [c1, c2, c3, fIds_fold i, fTag_fold i, fTh_fold i i.pwd, fAke_fold i i.pwd,
    fSmac_fold i i.pwd]
  split
  · rename_i h
    exact absurd rfl h
  split
  · rfl
  · rename_i h
    exact absurd (not_not.mp h) (fSmac_ne_bump i i.pwd)

theorem step7trunc (i : FlowIn) (p2 : Bytes) :
    client_finish_login (fLst i p2) p2 ((fKe2 i p2).dropLast) {} =
      (.error .sizeError, fLst i p2) := by
  have hlen : (fKe2 i p2).length = 256 := by
    rw [fKe2, fKe2core]
    exact ke2_len _ _ _ _ _ (length_enc32 _) (fTag_len i) (fSmac_len i p2)
  have h255 : ((fKe2 i p2).dropLast).length = 255 := by
    simp [List.length_dropLast, hlen]
  simp only [client_finish_login]
  rw [if_neg (by simp [fLst]), if_pos (by simp [h255])]

theorem client_finish_registration_consumed (st : ClientRegistrationState)
    (h : st.consumed = true) (pwd response : Bytes)
    (ps : ClientRegistrationFinishParameters) (nR : Nat) :
    client_finish_registration st pwd response ps nR = (.error .invalidState, st) := by
  simp only [client_finish_registration, h, if_true]

theorem client_finish_login_consumed (st : ClientLoginState)
    (h : st.consumed = true) (pwd ke2 : Bytes)
    (ps : ClientLoginFinishParameters) :
    client_finish_login st pwd ke2 ps = (.error .invalidState, st) := by
  simp only [client_finish_login, h, if_true]

theorem server_finish_login_consumed (st : ServerLoginState)
    (h : st.consumed = true) (ke3 : Bytes) (ps : ServerLoginParameters) :
    server_finish_login st ke3 ps = (.error .invalidState, st) := by
  simp only [server_finish_login, h, if_true]

theorem client_finish_registration_consumes (st : ClientRegistrationState)
    (pwd response : Bytes) (ps : ClientRegistrationFinishParameters) (nR : Nat) :
    (client_finish_registration st pwd response ps nR).2.consumed = true ∨
      (client_finish_registration st pwd response ps nR).1 = .error .sizeError ∨
      (client_finish_registration st pwd response ps nR).1 = .error .serializationError ∨
      (client_finish_registration st pwd response ps nR).1 = .error .invalidState := by
  unfold client_finish_registration
  split
  · simp
  split
  · simp
  split
  · simp
  · simp

theorem client_finish_login_consumes (st : ClientLoginState) (pwd ke2 : Bytes)
    (ps : ClientLoginFinishParameters) :
    (client_finish_login st pwd ke2 ps).2.consumed = true ∨
      (client_finish_login st pwd ke2 ps).1 = .error .sizeError ∨
      (client_finish_login st pwd ke2 ps).1 = .error .serializationError ∨
      (client_finish_login st pwd ke2 ps).1 = .error .invalidState := by
  unfold client_finish_login
  split
  · simp
  split
  · simp
  split
  · dsimp only
    split
    · simp
    · split
      · simp
      · simp
  · simp

theorem server_finish_login_consumes (st : ServerLoginState) (ke3 : Bytes)
    (ps : ServerLoginParameters) :
    (server_finish_login st ke3 ps).2.consumed = true ∨
      (server_finish_login st ke3 ps).1 = .error .sizeError ∨
      (server_finish_login st ke3 ps).1 = .error .serializationError ∨
      (server_finish_login st ke3 ps).1 = .error .invalidState := by
  unfold server_finish_login
  split
  · simp
  split
  · simp
  split
  · simp
  · simp

theorem crs_roundtrip {r : Scalar} (hr : r ≠ 0) (pwd : Bytes) :
    ClientRegistrationState.deserialize
      (ClientRegistrationState.serialize ⟨r, pwd, false⟩) = .ok ⟨r, pwd, false⟩ := by
  simp only [ClientRegistrationState.serialize, ClientRegistrationState.deserialize]
  rw [if_neg (by simp [length_enc32]), take_len_append _ _ (length_enc32 _),
    readNZ_enc32_val hr, drop_len_append _ _ (length_enc32 _)]

theorem cls_roundtrip {b e : Scalar} (hb : b ≠ 0) (he : e ≠ 0) {k1 : Bytes}
    (hk : k1.length = 64) :
    ClientLoginState.deserialize (ClientLoginState.serialize ⟨b, e, k1, false⟩) =
      .ok ⟨b, e, k1, false⟩ := by
  simp only [ClientLoginState.serialize, ClientLoginState.deserialize]
  have d32 : (enc32 b.val ++ (enc32 e.val ++ k1)).drop 32 = enc32 e.val ++ k1 :=
    drop_len_append _ _ (length_enc32 _)
  have d64 : (enc32 b.val ++ (enc32 e.val ++ k1)).drop 64 = k1 := by
    have eq64 : (enc32 b.val ++ (enc32 e.val ++ k1)).drop 64 =
        ((enc32 b.val ++ (enc32 e.val ++ k1)).drop 32).drop 32 := by
      rw [List.drop_drop]
    rw [eq64, d32]
    exact drop_len_append _ _ (length_enc32 _)
  rw [if_neg (by simp [length_enc32, hk]), take_len_append _ _ (length_enc32 _),
    readNZ_enc32_val hb, d32, take_len_append _ _ (length_enc32 _),
    readNZ_enc32_val he, d64]

theorem sls_roundtrip {m k : Bytes} (hm : m.length = 64) (hk : k.length = 64) :
    ServerLoginState.deserialize (ServerLoginState.serialize ⟨m, k, false⟩) =
      .ok ⟨m, k, false⟩ := by
  simp only [ServerLoginState.serialize, ServerLoginState.deserialize]
  rw [if_neg (by simp [hm, hk]), take_len_append _ _ hm, drop_len_append _ _ hm]

theorem serversetup_roundtrip (s : ServerSetup) (hseed : s.oprfSeed.length = 64)
    (hpk : s.pk = genPub s.sk) (hnz : s.pk ≠ 0) :
    ServerSetup.deserialize (ServerSetup.serialize s) = .ok s := by
  simp only [ServerSetup.serialize, ServerSetup.deserialize]
  have d64 : (s.oprfSeed ++ (enc32 s.sk.val ++ enc32 s.pk.val)).drop 64 =
      enc32 s.sk.val ++ enc32 s.pk.val := drop_len_append _ _ hseed
  have d96 : (s.oprfSeed ++ (enc32 s.sk.val ++ enc32 s.pk.val)).drop 96 =
      enc32 s.pk.val := by
    have eq96 : (s.oprfSeed ++ (enc32 s.sk.val ++ enc32 s.pk.val)).drop 96 =
        ((s.oprfSeed ++ (enc32 s.sk.val ++ enc32 s.pk.val)).drop 64).drop 32 := by
      rw [List.drop_drop]
    rw [eq96, d64]
    exact drop_len_append _ _ (length_enc32 _)
  rw [if_neg (by simp [hseed, length_enc32]), d64,
    take_len_append _ _ (length_enc32 _), readScalar_enc32_val, d96,
    readNZ_enc32_val hnz]
  dsimp only
  rw [if_pos hpk, take_len_append _ _ hseed]

theorem serverreg_roundtrip (r : ServerRegistration) (hc : r.clientPk ≠ 0)
    (hs : r.serverPk ≠ 0) (hn : r.envelope.nonce.length = 32)
    (ht : r.envelope.tag.length = 64) :
    ServerRegistration.deserialize (ServerRegistration.serialize r) = .ok r := by
  simp only [ServerRegistration.serialize, ServerRegistration.deserialize]
  have d32 : (enc32 r.clientPk.val ++ (enc32 r.serverPk.val ++
      (r.envelope.nonce ++ r.envelope.tag))).drop 32 =
      enc32 r.serverPk.val ++ (r.envelope.nonce ++ r.envelope.tag) :=
    drop_len_append _ _ (length_enc32 _)
  have d64 : (enc32 r.clientPk.val ++ (enc32 r.serverPk.val ++
      (r.envelope.nonce ++ r.envelope.tag))).drop 64 =
      r.envelope.nonce ++ r.envelope.tag := by
    have eq64 : (enc32 r.clientPk.val ++ (enc32 r.serverPk.val ++
        (r.envelope.nonce ++ r.envelope.tag))).drop 64 =
        ((enc32 r.clientPk.val ++ (enc32 r.serverPk.val ++
          (r.envelope.nonce ++ r.envelope.tag))).drop 32).drop 32 := by
      rw [List.drop_drop]
    rw [eq64, d32]
    exact drop_len_append _ _ (length_enc32 _)
  have d96 : (enc32 r.clientPk.val ++ (enc32 r.serverPk.val ++
      (r.envelope.nonce ++ r.envelope.tag))).drop 96 = r.envelope.tag := by
    have eq96 : (enc32 r.clientPk.val ++ (enc32 r.serverPk.val ++
        (r.envelope.nonce ++ r.envelope.tag))).drop 96 =
        ((enc32 r.clientPk.val ++ (enc32 r.serverPk.val ++
          (r.envelope.nonce ++ r.envelope.tag))).drop 64).drop 32 := by
      rw [List.drop_drop]
    rw [eq96, d64]
    exact drop_len_append _ _ hn
  rw [if_neg (by simp [length_enc32, hn, ht]),
    take_len_append _ _ (length_enc32 _), readNZ_enc32_val hc, d32,
    take_len_append _ _ (length_enc32 _), readNZ_enc32_val hs, d64,
    take_len_append _ _ hn, d96]

theorem hashOut_ne_nil (n : Nat) : hashOut n ≠ [] := by
  simp [hashOut]

theorem elemEnc_ne_nil (x : Elem) : elemEnc x ≠ [] := by
  simp [elemEnc, enc32]

theorem fEk_ne_nil (i : FlowIn) : fEk i ≠ [] := by
  rw [fEk, exportKeyOf]
  exact hashOut_ne_nil _

/-- C1: for every password `p` and credential identifier `c` (and all
randomness), the full registration flow followed by the full login flow with
the same `p`/`c` succeeds, yields a client session key bit-identical to the
server session key, a non-empty export key, and a non-empty server static
public key. -/
theorem c1_roundtrip (pwd cid : Bytes) (seedR skR rReg nR rLog eR sR : Nat)
    (h : pwd ≠ []) :
    ∃ out : Bytes × Bytes × Bytes × Bytes,
      runFullFlow pwd cid seedR skR rReg nR rLog eR sR = .ok out ∧
      out.1 = out.2.1 ∧ out.2.2.1 ≠ [] ∧ out.2.2.2 ≠ [] := by
  have e1 : client_start_registration pwd rReg =
      .ok (fReq ⟨pwd, cid, seedR, skR, rReg, nR, rLog, eR, sR⟩,
        fRst ⟨pwd, cid, seedR, skR, rReg, nR, rLog, eR, sR⟩) :=
    step1 ⟨pwd, cid, seedR, skR, rReg, nR, rLog, eR, sR⟩ h
  have e2 : server_start_registration (ServerSetup.create seedR skR)
      (fReq ⟨pwd, cid, seedR, skR, rReg, nR, rLog, eR, sR⟩) cid =
      .ok (fResp ⟨pwd, cid, seedR, skR, rReg, nR, rLog, eR, sR⟩) :=
    step2 ⟨pwd, cid, seedR, skR, rReg, nR, rLog, eR, sR⟩
  have e3 : client_finish_registration
      (fRst ⟨pwd, cid, seedR, skR, rReg, nR, rLog, eR, sR⟩) pwd
      (fResp ⟨pwd, cid, seedR, skR, rReg, nR, rLog, eR, sR⟩) {} nR =
      (.ok (fUpload ⟨pwd, cid, seedR, skR, rReg, nR, rLog, eR, sR⟩,
        fEk ⟨pwd, cid, seedR, skR, rReg, nR, rLog, eR, sR⟩),
        ⟨fBlind1 ⟨pwd, cid, seedR, skR, rReg, nR, rLog, eR, sR⟩, pwd, true⟩) :=
    step3 ⟨pwd, cid, seedR, skR, rReg, nR, rLog, eR, sR⟩
  have e4 : server_finish_registration
      (fUpload ⟨pwd, cid, seedR, skR, rReg, nR, rLog, eR, sR⟩) =
      .ok (fFile ⟨pwd, cid, seedR, skR, rReg, nR, rLog, eR, sR⟩) :=
    step4 ⟨pwd, cid, seedR, skR, rReg, nR, rLog, eR, sR⟩
  have e5 : client_start_login pwd rLog eR =
      .ok (fKe1 ⟨pwd, cid, seedR, skR, rReg, nR, rLog, eR, sR⟩ pwd,
        fLst ⟨pwd, cid, seedR, skR, rReg, nR, rLog, eR, sR⟩ pwd) :=
    step5 ⟨pwd, cid, seedR, skR, rReg, nR, rLog, eR, sR⟩ h
  have e6 : server_start_login (ServerSetup.create seedR skR)
      (some (fFile ⟨pwd, cid, seedR, skR, rReg, nR, rLog, eR, sR⟩))
      (fKe1 ⟨pwd, cid, seedR, skR, rReg, nR, rLog, eR, sR⟩ pwd) cid {} sR =
      .ok (fKe2 ⟨pwd, cid, seedR, skR, rReg, nR, rLog, eR, sR⟩ pwd,
        fSst ⟨pwd, cid, seedR, skR, rReg, nR, rLog, eR, sR⟩ pwd) :=
    step6 ⟨pwd, cid, seedR, skR, rReg, nR, rLog, eR, sR⟩ pwd
  have e7 : client_finish_login
      (fLst ⟨pwd, cid, seedR, skR, rReg, nR, rLog, eR, sR⟩ pwd) pwd
      (fKe2 ⟨pwd, cid, seedR, skR, rReg, nR, rLog, eR, sR⟩ pwd) {} =
      (.ok (fKe3 ⟨pwd, cid, seedR, skR, rReg, nR, rLog, eR, sR⟩ pwd,
        sessionKeyOf (fAke ⟨pwd, cid, seedR, skR, rReg, nR, rLog, eR, sR⟩ pwd),
        fEk ⟨pwd, cid, seedR, skR, rReg, nR, rLog, eR, sR⟩,
        elemEnc (fSetup ⟨pwd, cid, seedR, skR, rReg, nR, rLog, eR, sR⟩).pk),
        ⟨fBlind2 ⟨pwd, cid, seedR, skR, rReg, nR, rLog, eR, sR⟩,
          fEsk ⟨pwd, cid, seedR, skR, rReg, nR, rLog, eR, sR⟩,
          fKe1 ⟨pwd, cid, seedR, skR, rReg, nR, rLog, eR, sR⟩ pwd, true⟩) :=
    step7 ⟨pwd, cid, seedR, skR, rReg, nR, rLog, eR, sR⟩
  have e8 : server_finish_login
      (fSst ⟨pwd, cid, seedR, skR, rReg, nR, rLog, eR, sR⟩ pwd)
      (fKe3 ⟨pwd, cid, seedR, skR, rReg, nR, rLog, eR, sR⟩ pwd) {} =
      (.ok (sessionKeyOf (fAke ⟨pwd, cid, seedR, skR, rReg, nR, rLog, eR, sR⟩ pwd)),
        ⟨fKe3 ⟨pwd, cid, seedR, skR, rReg, nR, rLog, eR, sR⟩ pwd,
          sessionKeyOf (fAke ⟨pwd, cid, seedR, skR, rReg, nR, rLog, eR, sR⟩ pwd),
          true⟩) :=
    step8 ⟨pwd, cid, seedR, skR, rReg, nR, rLog, eR, sR⟩ pwd
  refine ⟨(sessionKeyOf (fAke ⟨pwd, cid, seedR, skR, rReg, nR, rLog, eR, sR⟩ pwd),
    sessionKeyOf (fAke ⟨pwd, cid, seedR, skR, rReg, nR, rLog, eR, sR⟩ pwd),
    fEk ⟨pwd, cid, seedR, skR, rReg, nR, rLog, eR, sR⟩,
    elemEnc (fSetup ⟨pwd, cid, seedR, skR, rReg, nR, rLog, eR, sR⟩).pk),
    ?_, rfl, fEk_ne_nil _, elemEnc_ne_nil _⟩
  simp only [runFullFlow, e1, e2, e3, e4, e5, e6, e7, e8]

/-- Witness for C1 at a concrete password, identifier and randomness. -/
theorem c1_roundtrip_witness :
    ∃ out : Bytes × Bytes × Bytes × Bytes,
      runFullFlow [112] [117] 1 2 3 4 5 6 7 = .ok out ∧
      out.1 = out.2.1 ∧ out.2.2.1 ≠ [] ∧ out.2.2.2 ≠ [] :=
  c1_roundtrip [112] [117] 1 2 3 4 5 6 7 (by decide)

/-- C2: a login flow started with a wrong password `p' ≠ p` against a
password file registered under `p` makes `client.finish_login` fail with
`InvalidLoginError`; the same generic `InvalidLoginError` results when the
envelope opens correctly (right password) but the transcript MAC is tampered
with, so the error does not reveal which cryptographic check failed. -/
theorem c2_wrong_password (pwd pwd' cid : Bytes)
    (seedR skR rReg nR rLog eR sR : Nat) (h : pwd ≠ []) (h' : pwd' ≠ [])
    (hne : pwd' ≠ pwd) :
    ∃ (req : Bytes) (rst : ClientRegistrationState) (resp ul ek : Bytes)
      (file : ServerRegistration) (ke1 : Bytes) (lst : ClientLoginState)
      (ke2 : Bytes) (sst : ServerLoginState) (ke1b : Bytes)
      (lstb : ClientLoginState) (ke2b : Bytes) (sstb : ServerLoginState),
      client_start_registration pwd rReg = .ok (req, rst) ∧
      server_start_registration (ServerSetup.create seedR skR) req cid = .ok resp ∧
      (client_finish_registration rst pwd resp {} nR).1 = .ok (ul, ek) ∧
      server_finish_registration ul = .ok file ∧
      client_start_login pwd' rLog eR = .ok (ke1, lst) ∧
      server_start_login (ServerSetup.create seedR skR) (some file) ke1 cid {} sR =
        .ok (ke2, sst) ∧
      (client_finish_login lst pwd' ke2 {}).1 = .error .invalidLogin ∧
      client_start_login pwd rLog eR = .ok (ke1b, lstb) ∧
      server_start_login (ServerSetup.create seedR skR) (some file) ke1b cid {} sR =
        .ok (ke2b, sstb) ∧
      (client_finish_login lstb pwd (ke2b.take 192 ++ bumpHead (ke2b.drop 192)) {}).1 =
        .error .invalidLogin := by
  obtain ⟨qt1, qt2, qt3, qt4, qt5, qt6, qt7⟩ :=
    ke2_parse (fEv2 ⟨pwd, cid, seedR, skR, rReg, nR, rLog, eR, sR⟩ pwd)
      ⟨fNonce ⟨pwd, cid, seedR, skR, rReg, nR, rLog, eR, sR⟩,
        fTag ⟨pwd, cid, seedR, skR, rReg, nR, rLog, eR, sR⟩⟩
      (fSetup ⟨pwd, cid, seedR, skR, rReg, nR, rLog, eR, sR⟩).pk
      (genPub (fSe ⟨pwd, cid, seedR, skR, rReg, nR, rLog, eR, sR⟩))
      (fSmac ⟨pwd, cid, seedR, skR, rReg, nR, rLog, eR, sR⟩ pwd)
      (length_enc32 _) (fTag_len ⟨pwd, cid, seedR, skR, rReg, nR, rLog, eR, sR⟩)
  refine ⟨fReq ⟨pwd, cid, seedR, skR, rReg, nR, rLog, eR, sR⟩,
    fRst ⟨pwd, cid, seedR, skR, rReg, nR, rLog, eR, sR⟩,
    fResp ⟨pwd, cid, seedR, skR, rReg, nR, rLog, eR, sR⟩,
    fUpload ⟨pwd, cid, seedR, skR, rReg, nR, rLog, eR, sR⟩,
    fEk ⟨pwd, cid, seedR, skR, rReg, nR, rLog, eR, sR⟩,
    fFile ⟨pwd, cid, seedR, skR, rReg, nR, rLog, eR, sR⟩,
    fKe1 ⟨pwd, cid, seedR, skR, rReg, nR, rLog, eR, sR⟩ pwd',
    fLst ⟨pwd, cid, seedR, skR, rReg, nR, rLog, eR, sR⟩ pwd',
    fKe2 ⟨pwd, cid, seedR, skR, rReg, nR, rLog, eR, sR⟩ pwd',
    fSst ⟨pwd, cid, seedR, skR, rReg, nR, rLog, eR, sR⟩ pwd',
    fKe1 ⟨pwd, cid, seedR, skR, rReg, nR, rLog, eR, sR⟩ pwd,
    fLst ⟨pwd, cid, seedR, skR, rReg, nR, rLog, eR, sR⟩ pwd,
    fKe2 ⟨pwd, cid, seedR, skR, rReg, nR, rLog, eR, sR⟩ pwd,
    fSst ⟨pwd, cid, seedR, skR, rReg, nR, rLog, eR, sR⟩ pwd,
    step1 ⟨pwd, cid, seedR, skR, rReg, nR, rLog, eR, sR⟩ h,
    step2 ⟨pwd, cid, seedR, skR, rReg, nR, rLog, eR, sR⟩, ?_,
    step4 ⟨pwd, cid, seedR, skR, rReg, nR, rLog, eR, sR⟩,
    step5 ⟨pwd, cid, seedR, skR, rReg, nR, rLog, eR, sR⟩ h',
    step6 ⟨pwd, cid, seedR, skR, rReg, nR, rLog, eR, sR⟩ pwd', ?_,
    step5 ⟨pwd, cid, seedR, skR, rReg, nR, rLog, eR, sR⟩ h,
    step6 ⟨pwd, cid, seedR, skR, rReg, nR, rLog, eR, sR⟩ pwd, ?_⟩
  · rw [step3 ⟨pwd, cid, seedR, skR, rReg, nR, rLog, eR, sR⟩]
  · rw [step7bad ⟨pwd, cid, seedR, skR, rReg, nR, rLog, eR, sR⟩ hne]
  · have ht : (fKe2 ⟨pwd, cid, seedR, skR, rReg, nR, rLog, eR, sR⟩ pwd).take 192 ++
        bumpHead ((fKe2 ⟨pwd, cid, seedR, skR, rReg, nR, rLog, eR, sR⟩ pwd).drop 192) =
        fKe2core ⟨pwd, cid, seedR, skR, rReg, nR, rLog, eR, sR⟩ pwd ++
          bumpHead (fSmac ⟨pwd, cid, seedR, skR, rReg, nR, rLog, eR, sR⟩ pwd) := by
      rw [fKe2, fKe2core]
      rw [qt6, qt7]
    rw [ht, step7tamper ⟨pwd, cid, seedR, skR, rReg, nR, rLog, eR, sR⟩]

/-- Witness for C2 at a concrete password pair and randomness. -/
theorem c2_wrong_password_witness :
    ∃ (req : Bytes) (rst : ClientRegistrationState) (resp ul ek : Bytes)
      (file : ServerRegistration) (ke1 : Bytes) (lst : ClientLoginState)
      (ke2 : Bytes) (sst : ServerLoginState) (ke1b : Bytes)
      (lstb : ClientLoginState) (ke2b : Bytes) (sstb : ServerLoginState),
      client_start_registration [112] 3 = .ok (req, rst) ∧
      server_start_registration (ServerSetup.create 1 2) req [117] = .ok resp ∧
      (client_finish_registration rst [112] resp {} 4).1 = .ok (ul, ek) ∧
      server_finish_registration ul = .ok file ∧
      client_start_login [113] 5 6 = .ok (ke1, lst) ∧
      server_start_login (ServerSetup.create 1 2) (some file) ke1 [117] {} 7 =
        .ok (ke2, sst) ∧
      (client_finish_login lst [113] ke2 {}).1 = .error .invalidLogin ∧
      client_start_login [112] 5 6 = .ok (ke1b, lstb) ∧
      server_start_login (ServerSetup.create 1 2) (some file) ke1b [117] {} 7 =
        .ok (ke2b, sstb) ∧
      (client_finish_login lstb [112] (ke2b.take 192 ++ bumpHead (ke2b.drop 192)) {}).1 =
        .error .invalidLogin :=
  c2_wrong_password [112] [113] [117] 1 2 3 4 5 6 7 (by decide) (by decide)
    (by decide)

/-- C3 (amended): a finish step invoked on an already-consumed state fails
with `InvalidStateError` (leaving the state unchanged), and every finish call
either consumes its state — in particular on success and on
`InvalidLoginError` — or rejects the input with `SizeError`,
`SerializationError` or `InvalidStateError` without touching it; hence a
second finish after a successful (or `InvalidLoginError`-failing) first call
fails with `InvalidStateError`, but after a `SizeError`/`SerializationError`
rejection the state remains unconsumed and the retry is not an
`InvalidStateError`. -/
theorem c3_one_shot :
    (∀ (st : ClientRegistrationState) (pwd resp : Bytes)
      (ps : ClientRegistrationFinishParameters) (nR : Nat),
      st.consumed = true →
      client_finish_registration st pwd resp ps nR = (.error .invalidState, st)) ∧
    (∀ (st : ClientLoginState) (pwd ke2 : Bytes)
      (ps : ClientLoginFinishParameters), st.consumed = true →
      client_finish_login st pwd ke2 ps = (.error .invalidState, st)) ∧
    (∀ (st : ServerLoginState) (ke3 : Bytes) (ps : ServerLoginParameters),
      st.consumed = true →
      server_finish_login st ke3 ps = (.error .invalidState, st)) ∧
    (∀ (st : ClientRegistrationState) (pwd resp : Bytes)
      (ps : ClientRegistrationFinishParameters) (nR : Nat),
      (client_finish_registration st pwd resp ps nR).2.consumed = true ∨
      (client_finish_registration st pwd resp ps nR).1 = .error .sizeError ∨
      (client_finish_registration st pwd resp ps nR).1 = .error .serializationError ∨
      (client_finish_registration st pwd resp ps nR).1 = .error .invalidState) ∧
    (∀ (st : ClientLoginState) (pwd ke2 : Bytes)
      (ps : ClientLoginFinishParameters),
      (client_finish_login st pwd ke2 ps).2.consumed = true ∨
      (client_finish_login st pwd ke2 ps).1 = .error .sizeError ∨
      (client_finish_login st pwd ke2 ps).1 = .error .serializationError ∨
      (client_finish_login st pwd ke2 ps).1 = .error .invalidState) ∧
    (∀ (st : ServerLoginState) (ke3 : Bytes) (ps : ServerLoginParameters),
      (server_finish_login st ke3 ps).2.consumed = true ∨
      (server_finish_login st ke3 ps).1 = .error .sizeError ∨
      (server_finish_login st ke3 ps).1 = .error .serializationError ∨
      (server_finish_login st ke3 ps).1 = .error .invalidState) :=
  ⟨fun st pwd resp ps nR hc => client_finish_registration_consumed st hc pwd resp ps nR,
   fun st pwd ke2 ps hc => client_finish_login_consumed st hc pwd ke2 ps,
   fun st ke3 ps hc => server_finish_login_consumed st hc ke3 ps,
   client_finish_registration_consumes,
   client_finish_login_consumes,
   server_finish_login_consumes⟩

/-- Witness for C3 (amended) at concrete consumed states. -/
theorem c3_one_shot_witness :
    client_finish_registration ⟨1, [1], true⟩ [1] [] {} 0 =
      (.error .invalidState, ⟨1, [1], true⟩) ∧
    client_finish_login ⟨1, 1, [], true⟩ [1] [] {} =
      (.error .invalidState, ⟨1, 1, [], true⟩) ∧
    server_finish_login ⟨[], [], true⟩ [] {} =
      (.error .invalidState, ⟨[], [], true⟩) :=
  ⟨c3_one_shot.1 ⟨1, [1], true⟩ [1] [] {} 0 rfl,
   c3_one_shot.2.1 ⟨1, 1, [], true⟩ [1] [] {} rfl,
   c3_one_shot.2.2.1 ⟨[], [], true⟩ [] {} rfl⟩

/-- Counterexample to C3 as stated: a fresh client login state produced by
`client.start_login` whose first finish invocation fails with `SizeError`
(truncated input, state untouched); the second invocation on the same
instance fails with `SizeError` again, not with `InvalidStateError`. -/
theorem c3_counterexample :
    client_start_login [1] 1 1 =
      .ok (elemEnc (10 : Elem) ++ elemEnc (1 : Elem),
        ⟨1, 1, elemEnc (10 : Elem) ++ elemEnc (1 : Elem), false⟩) ∧
    (client_finish_login ⟨1, 1, elemEnc (10 : Elem) ++ elemEnc (1 : Elem), false⟩
      [1] [] {}).1 = .error .sizeError ∧
    (client_finish_login ⟨1, 1, elemEnc (10 : Elem) ++ elemEnc (1 : Elem), false⟩
      [1] [] {}).2 = ⟨1, 1, elemEnc (10 : Elem) ++ elemEnc (1 : Elem), false⟩ ∧
    (client_finish_login
      ((client_finish_login ⟨1, 1, elemEnc (10 : Elem) ++ elemEnc (1 : Elem), false⟩
        [1] [] {}).2) [1] [] {}).1 ≠ .error .invalidState := by
  decide

/-- C4: deserializing the serialization of a `ServerSetup` or of a
`ServerRegistration` (password file) produced by the protocol yields the
original structure back, so re-serializing reproduces the original bytes. -/
theorem c4_serialization_roundtrip :
    (∀ seedR skR : Nat,
      ServerSetup.deserialize (ServerSetup.serialize (ServerSetup.create seedR skR)) =
        .ok (ServerSetup.create seedR skR)) ∧
    (∀ (pwd cid : Bytes) (seedR skR rReg nR : Nat), pwd ≠ [] →
      ∃ (req : Bytes) (rst : ClientRegistrationState) (resp ul ek : Bytes)
        (file : ServerRegistration),
        client_start_registration pwd rReg = .ok (req, rst) ∧
        server_start_registration (ServerSetup.create seedR skR) req cid = .ok resp ∧
        (client_finish_registration rst pwd resp {} nR).1 = .ok (ul, ek) ∧
        server_finish_registration ul = .ok file ∧
        ServerRegistration.deserialize (ServerRegistration.serialize file) = .ok file) := by
  constructor
  · intro seedR skR
    exact serversetup_roundtrip _ (length_hashOut _) rfl
      (genPub_ne_zero (nonzeroScalar_ne_zero _))
  · intro pwd cid seedR skR rReg nR h
    refine ⟨fReq ⟨pwd, cid, seedR, skR, rReg, nR, 0, 0, 0⟩,
      fRst ⟨pwd, cid, seedR, skR, rReg, nR, 0, 0, 0⟩,
      fResp ⟨pwd, cid, seedR, skR, rReg, nR, 0, 0, 0⟩,
      fUpload ⟨pwd, cid, seedR, skR, rReg, nR, 0, 0, 0⟩,
      fEk ⟨pwd, cid, seedR, skR, rReg, nR, 0, 0, 0⟩,
      fFile ⟨pwd, cid, seedR, skR, rReg, nR, 0, 0, 0⟩,
      step1 ⟨pwd, cid, seedR, skR, rReg, nR, 0, 0, 0⟩ h,
      step2 ⟨pwd, cid, seedR, skR, rReg, nR, 0, 0, 0⟩, ?_,
      step4 ⟨pwd, cid, seedR, skR, rReg, nR, 0, 0, 0⟩, ?_⟩
    · rw [step3 ⟨pwd, cid, seedR, skR, rReg, nR, 0, 0, 0⟩]
    · exact serverreg_roundtrip _
        (genPub_ne_zero (deriveSk_ne_zero _ _))
        (setup_pk_ne_zero ⟨pwd, cid, seedR, skR, rReg, nR, 0, 0, 0⟩)
        (length_enc32 _)
        (fTag_len ⟨pwd, cid, seedR, skR, rReg, nR, 0, 0, 0⟩)

/-- Witness for C4's flow-dependent part at concrete inputs. -/
theorem c4_serialization_roundtrip_witness :
    ∃ (req : Bytes) (rst : ClientRegistrationState) (resp ul ek : Bytes)
      (file : ServerRegistration),
      client_start_registration [112] 3 = .ok (req, rst) ∧
      server_start_registration (ServerSetup.create 1 2) req [117] = .ok resp ∧
      (client_finish_registration rst [112] resp {} 4).1 = .ok (ul, ek) ∧
      server_finish_registration ul = .ok file ∧
      ServerRegistration.deserialize (ServerRegistration.serialize file) = .ok file :=
  c4_serialization_roundtrip.2 [112] [117] 1 2 3 4 (by decide)

theorem isTaxonomy_all {α : Type} (r : Except Error α) : isTaxonomy r := by
  rcases r with e | a
  · cases e
    · exact Or.inr (Or.inl rfl)
    · exact Or.inr (Or.inr (Or.inl rfl))
    · exact Or.inr (Or.inr (Or.inr (Or.inl rfl)))
    · exact Or.inr (Or.inr (Or.inr (Or.inr rfl)))
  · exact Or.inl ⟨a, rfl⟩

theorem fKe2_len (i : FlowIn) (p2 : Bytes) : (fKe2 i p2).length = 256 := by
  rw [fKe2, fKe2core]
  exact ke2_len _ _ _ _ _ (length_enc32 _) (fTag_len i) (fSmac_len i p2)

/-- C5: when the password file is absent, `server.start_login` behaves
exactly as if the deterministic fake record derived from the server setup and
credential identifier were registered; on any well-formed ke1 it succeeds and
its response has the same 256-cell shape as the response for a registered
user. -/
theorem c5_unknown_user :
    (∀ (setup : ServerSetup) (ke1 cid : Bytes) (ps : ServerLoginParameters)
      (r : Nat),
      server_start_login setup none ke1 cid ps r =
        server_start_login setup (some (fakeRecord setup cid)) ke1 cid ps r) ∧
    (∀ (setup : ServerSetup) (b c : Elem), b ≠ 0 → c ≠ 0 →
      ∀ (cid : Bytes) (ps : ServerLoginParameters) (r : Nat),
      ∃ (ke2f : Bytes) (sstf : ServerLoginState),
        server_start_login setup none (elemEnc b ++ elemEnc c) cid ps r =
          .ok (ke2f, sstf) ∧ ke2f.length = 256) ∧
    (∀ (i : FlowIn) (p2 : Bytes), (fKe2 i p2).length = 256) := by
  refine ⟨fun setup ke1 cid ps r => rfl, ?_, ?_⟩
  · intro setup b c hb hc cid ps r
    refine ⟨_, _, server_start_login_file setup (fakeRecord setup cid) hb hc cid ps r, ?_⟩
    exact ke2_len _ _ _ _ _ (length_enc32 _) (length_hashOut _)
      (by rw [macF]; exact length_hashOut _)
  · exact fKe2_len

/-- Witness for C5's conditional part at a concrete setup and ke1. -/
theorem c5_unknown_user_witness :
    ∃ (ke2f : Bytes) (sstf : ServerLoginState),
      server_start_login (ServerSetup.create 1 2) none
        (elemEnc (3 : Elem) ++ elemEnc (1 : Elem)) [117] {} 5 =
        .ok (ke2f, sstf) ∧ ke2f.length = 256 :=
  c5_unknown_user.2.1 (ServerSetup.create 1 2) 3 1 (by decide) (by decide)
    [117] {} 5

/-- C6: every core operation is total and returns either a normal result or
exactly one of the four error kinds; an empty password is rejected with
`SizeError` rather than any abnormal termination. -/
theorem c6_error_taxonomy :
    (∀ r : Nat, client_start_registration [] r = .error .sizeError) ∧
    (∀ rb re : Nat, client_start_login [] rb re = .error .sizeError) ∧
    (∀ (pwd : Bytes) (r : Nat), isTaxonomy (client_start_registration pwd r)) ∧
    (∀ (setup : ServerSetup) (req cid : Bytes),
      isTaxonomy (server_start_registration setup req cid)) ∧
    (∀ (st : ClientRegistrationState) (pwd resp : Bytes)
      (ps : ClientRegistrationFinishParameters) (nR : Nat),
      isTaxonomy (client_finish_registration st pwd resp ps nR).1) ∧
    (∀ ul : Bytes, isTaxonomy (server_finish_registration ul)) ∧
    (∀ (pwd : Bytes) (rb re : Nat), isTaxonomy (client_start_login pwd rb re)) ∧
    (∀ (setup : ServerSetup) (fl : Option ServerRegistration) (ke1 cid : Bytes)
      (ps : ServerLoginParameters) (r : Nat),
      isTaxonomy (server_start_login setup fl ke1 cid ps r)) ∧
    (∀ (st : ClientLoginState) (pwd ke2 : Bytes)
      (ps : ClientLoginFinishParameters),
      isTaxonomy (client_finish_login st pwd ke2 ps).1) ∧
    (∀ (st : ServerLoginState) (ke3 : Bytes) (ps : ServerLoginParameters),
      isTaxonomy (server_finish_login st ke3 ps).1) ∧
    (∀ a b : Bytes, isTaxonomy (verify_server_public_key a b)) ∧
    (∀ s : List Nat, isTaxonomy (decode_b64 s)) :=
  ⟨fun r => by simp [client_start_registration],
   fun rb re => by simp [client_start_login],
   fun _ _ => isTaxonomy_all _,
   fun _ _ _ => isTaxonomy_all _,
   fun _ _ _ _ _ => isTaxonomy_all _,
   fun _ => isTaxonomy_all _,
   fun _ _ _ => isTaxonomy_all _,
   fun _ _ _ _ _ _ => isTaxonomy_all _,
   fun _ _ _ _ => isTaxonomy_all _,
   fun _ _ _ => isTaxonomy_all _,
   fun _ _ => isTaxonomy_all _,
   fun _ => isTaxonomy_all _⟩

/-- C7: for every login response produced by `server.start_login` in a
successful flow, removing the trailing byte makes `client.finish_login` fail
with `SizeError`, leaving the client login state untouched — the length check
precedes any structural validation. -/
theorem c7_truncation (pwd cid : Bytes) (seedR skR rReg nR rLog eR sR : Nat)
    (h : pwd ≠ []) :
    ∃ (req : Bytes) (rst : ClientRegistrationState) (resp ul ek : Bytes)
      (file : ServerRegistration) (ke1 : Bytes) (lst : ClientLoginState)
      (ke2 : Bytes) (sst : ServerLoginState),
      client_start_registration pwd rReg = .ok (req, rst) ∧
      server_start_registration (ServerSetup.create seedR skR) req cid = .ok resp ∧
      (client_finish_registration rst pwd resp {} nR).1 = .ok (ul, ek) ∧
      server_finish_registration ul = .ok file ∧
      client_start_login pwd rLog eR = .ok (ke1, lst) ∧
      server_start_login (ServerSetup.create seedR skR) (some file) ke1 cid {} sR =
        .ok (ke2, sst) ∧
      ke2.length = 256 ∧
      client_finish_login lst pwd ke2.dropLast {} = (.error .sizeError, lst) := by
  refine ⟨fReq ⟨pwd, cid, seedR, skR, rReg, nR, rLog, eR, sR⟩,
    fRst ⟨pwd, cid, seedR, skR, rReg, nR, rLog, eR, sR⟩,
    fResp ⟨pwd, cid, seedR, skR, rReg, nR, rLog, eR, sR⟩,
    fUpload ⟨pwd, cid, seedR, skR, rReg, nR, rLog, eR, sR⟩,
    fEk ⟨pwd, cid, seedR, skR, rReg, nR, rLog, eR, sR⟩,
    fFile ⟨pwd, cid, seedR, skR, rReg, nR, rLog, eR, sR⟩,
    fKe1 ⟨pwd, cid, seedR, skR, rReg, nR, rLog, eR, sR⟩ pwd,
    fLst ⟨pwd, cid, seedR, skR, rReg, nR, rLog, eR, sR⟩ pwd,
    fKe2 ⟨pwd, cid, seedR, skR, rReg, nR, rLog, eR, sR⟩ pwd,
    fSst ⟨pwd, cid, seedR, skR, rReg, nR, rLog, eR, sR⟩ pwd,
    step1 ⟨pwd, cid, seedR, skR, rReg, nR, rLog, eR, sR⟩ h,
    step2 ⟨pwd, cid, seedR, skR, rReg, nR, rLog, eR, sR⟩, ?_,
    step4 ⟨pwd, cid, seedR, skR, rReg, nR, rLog, eR, sR⟩,
    step5 ⟨pwd, cid, seedR, skR, rReg, nR, rLog, eR, sR⟩ h,
    step6 ⟨pwd, cid, seedR, skR, rReg, nR, rLog, eR, sR⟩ pwd,
    fKe2_len ⟨pwd, cid, seedR, skR, rReg, nR, rLog, eR, sR⟩ pwd,
    step7trunc ⟨pwd, cid, seedR, skR, rReg, nR, rLog, eR, sR⟩ pwd⟩
  rw [step3 ⟨pwd, cid, seedR, skR, rReg, nR, rLog, eR, sR⟩]

/-- Witness for C7 at concrete inputs. -/
theorem c7_truncation_witness :
    ∃ (req : Bytes) (rst : ClientRegistrationState) (resp ul ek : Bytes)
      (file : ServerRegistration) (ke1 : Bytes) (lst : ClientLoginState)
      (ke2 : Bytes) (sst : ServerLoginState),
      client_start_registration [112] 3 = .ok (req, rst) ∧
      server_start_registration (ServerSetup.create 1 2) req [117] = .ok resp ∧
      (client_finish_registration rst [112] resp {} 4).1 = .ok (ul, ek) ∧
      server_finish_registration ul = .ok file ∧
      client_start_login [112] 5 6 = .ok (ke1, lst) ∧
      server_start_login (ServerSetup.create 1 2) (some file) ke1 [117] {} 7 =
        .ok (ke2, sst) ∧
      ke2.length = 256 ∧
      client_finish_login lst [112] ke2.dropLast {} = (.error .sizeError, lst) :=
  c7_truncation [112] [117] 1 2 3 4 5 6 7 (by decide)

theorem readNZ_zeros : readNZ (List.replicate 32 0) = .error .serializationError := by
  decide

theorem genPub_zero : genPub 0 = 0 := by
  simp [genPub, smul]

theorem setup_serialize_zeroed (seedR skR : Nat) :
    (ServerSetup.create seedR skR).serialize.take 64 ++
      (List.replicate 32 0 ++ (ServerSetup.create seedR skR).serialize.drop 96) =
      hashOut seedR ++ (List.replicate 32 0 ++
        enc32 (ServerSetup.create seedR skR).pk.val) := by
  simp only [ServerSetup.serialize, ServerSetup.create]
  have d96 : (hashOut seedR ++ (enc32 (nonzeroScalar skR).val ++
      enc32 (genPub (nonzeroScalar skR)).val)).drop 96 =
      enc32 (genPub (nonzeroScalar skR)).val := by
    have eq96 : (hashOut seedR ++ (enc32 (nonzeroScalar skR).val ++
        enc32 (genPub (nonzeroScalar skR)).val)).drop 96 =
        ((hashOut seedR ++ (enc32 (nonzeroScalar skR).val ++
          enc32 (genPub (nonzeroScalar skR)).val)).drop 64).drop 32 := by
      rw [List.drop_drop]
    rw [eq96, drop_len_append _ _ (length_hashOut _)]
    exact drop_len_append _ _ (length_enc32 _)
  rw [take_len_append _ _ (length_hashOut _), d96]

/-- C8: zeroing the secret-key region (cells 64..96) of a serialized
`ServerSetup` makes `ServerSetup.deserialize` fail with `SerializationError`
(the embedded public key no longer equals the generator scalar-multiplied by
the secret key), and zeroing the first 32 cells of a registration upload
makes `server.finish_registration` fail with `SerializationError` (the bytes
are no longer a valid non-identity group-element encoding). -/
theorem c8_corruption :
    (∀ seedR skR : Nat,
      ServerSetup.deserialize
        ((ServerSetup.create seedR skR).serialize.take 64 ++
          (List.replicate 32 0 ++ (ServerSetup.create seedR skR).serialize.drop 96)) =
        .error .serializationError) ∧
    (∀ (pwd cid : Bytes) (seedR skR rReg nR : Nat), pwd ≠ [] →
      ∃ (req : Bytes) (rst : ClientRegistrationState) (resp ul ek : Bytes),
        client_start_registration pwd rReg = .ok (req, rst) ∧
        server_start_registration (ServerSetup.create seedR skR) req cid = .ok resp ∧
        (client_finish_registration rst pwd resp {} nR).1 = .ok (ul, ek) ∧
        server_finish_registration (List.replicate 32 0 ++ ul.drop 32) =
          .error .serializationError) := by
  constructor
  · intro seedR skR
    rw [setup_serialize_zeroed seedR skR]
    have hnz : (ServerSetup.create seedR skR).pk ≠ 0 :=
      genPub_ne_zero (nonzeroScalar_ne_zero _)
    have d64 : (hashOut seedR ++ (List.replicate 32 0 ++
        enc32 (ServerSetup.create seedR skR).pk.val)).drop 64 =
        List.replicate 32 0 ++ enc32 (ServerSetup.create seedR skR).pk.val :=
      drop_len_append _ _ (length_hashOut _)
    have d96 : (hashOut seedR ++ (List.replicate 32 0 ++
        enc32 (ServerSetup.create seedR skR).pk.val)).drop 96 =
        enc32 (ServerSetup.create seedR skR).pk.val := by
      have eq96 : (hashOut seedR ++ (List.replicate 32 0 ++
          enc32 (ServerSetup.create seedR skR).pk.val)).drop 96 =
          ((hashOut seedR ++ (List.replicate 32 0 ++
            enc32 (ServerSetup.create seedR skR).pk.val)).drop 64).drop 32 := by
        rw [List.drop_drop]
      rw [eq96, d64]
      exact drop_len_append _ _ (by simp)
    simp only [ServerSetup.deserialize]
    rw [if_neg (by simp [length_hashOut, length_enc32]), d64,
      take_len_append _ _ (by simp), readScalar_zeros, d96,
      readNZ_enc32_val hnz]
    dsimp only
    rw [if_neg (by rw [genPub_zero]; exact hnz)]
  · intro pwd cid seedR skR rReg nR h
    refine ⟨fReq ⟨pwd, cid, seedR, skR, rReg, nR, 0, 0, 0⟩,
      fRst ⟨pwd, cid, seedR, skR, rReg, nR, 0, 0, 0⟩,
      fResp ⟨pwd, cid, seedR, skR, rReg, nR, 0, 0, 0⟩,
      fUpload ⟨pwd, cid, seedR, skR, rReg, nR, 0, 0, 0⟩,
      fEk ⟨pwd, cid, seedR, skR, rReg, nR, 0, 0, 0⟩,
      step1 ⟨pwd, cid, seedR, skR, rReg, nR, 0, 0, 0⟩ h,
      step2 ⟨pwd, cid, seedR, skR, rReg, nR, 0, 0, 0⟩, ?_, ?_⟩
    · rw [step3 ⟨pwd, cid, seedR, skR, rReg, nR, 0, 0, 0⟩]
    · rw [fUpload, regUpload_parse]
      rw [drop_len_append _ _ (length_enc32 _)]
      simp only [server_finish_registration, ServerRegistration.deserialize]
      rw [if_neg (by simp [length_enc32, sealTag, length_hashOut]),
        take_len_append _ _ (by simp), readNZ_zeros]

/-- Witness for C8's flow-dependent part at concrete inputs. -/
theorem c8_corruption_witness :
    ∃ (req : Bytes) (rst : ClientRegistrationState) (resp ul ek : Bytes),
      client_start_registration [112] 3 = .ok (req, rst) ∧
      server_start_registration (ServerSetup.create 1 2) req [117] = .ok resp ∧
      (client_finish_registration rst [112] resp {} 4).1 = .ok (ul, ek) ∧
      server_finish_registration (List.replicate 32 0 ++ ul.drop 32) =
        .error .serializationError :=
  c8_corruption.2 [112] [117] 1 2 3 4 (by decide)

theorem fKe1_len (i : FlowIn) (p2 : Bytes) : (fKe1 i p2).length = 64 := by
  simp [fKe1, length_elemEnc]

theorem sessionKeyOf_len (a : Nat) : (sessionKeyOf a).length = 64 := by
  rw [sessionKeyOf]
  exact length_hashOut _

/-- C9: each ephemeral state produced by a start step survives a
serialize/deserialize round trip unchanged, so the restored state can be
consumed by the corresponding finish step in place of the original and the
protocol run completes with the same matching session keys. -/
theorem c9_state_roundtrip (pwd cid : Bytes) (seedR skR rReg nR rLog eR sR : Nat)
    (h : pwd ≠ []) :
    ∃ (req : Bytes) (rst : ClientRegistrationState) (ke1 : Bytes)
      (lst : ClientLoginState) (ke2 : Bytes) (sst : ServerLoginState),
      client_start_registration pwd rReg = .ok (req, rst) ∧
      ClientRegistrationState.deserialize rst.serialize = .ok rst ∧
      (∀ rst', ClientRegistrationState.deserialize rst.serialize = .ok rst' →
        ∀ (resp : Bytes) (ps : ClientRegistrationFinishParameters) (n : Nat),
        client_finish_registration rst' pwd resp ps n =
          client_finish_registration rst pwd resp ps n) ∧
      client_start_login pwd rLog eR = .ok (ke1, lst) ∧
      ClientLoginState.deserialize lst.serialize = .ok lst ∧
      (∀ lst', ClientLoginState.deserialize lst.serialize = .ok lst' →
        ∀ (k2 : Bytes) (ps : ClientLoginFinishParameters),
        client_finish_login lst' pwd k2 ps = client_finish_login lst pwd k2 ps) ∧
      server_start_login (ServerSetup.create seedR skR)
        (some (fFile ⟨pwd, cid, seedR, skR, rReg, nR, rLog, eR, sR⟩)) ke1 cid {} sR =
        .ok (ke2, sst) ∧
      ServerLoginState.deserialize sst.serialize = .ok sst ∧
      (∀ sst', ServerLoginState.deserialize sst.serialize = .ok sst' →
        ∀ (k3 : Bytes) (ps : ServerLoginParameters),
        server_finish_login sst' k3 ps = server_finish_login sst k3 ps) ∧
      (client_finish_login lst pwd ke2 {}).1 =
        .ok (fKe3 ⟨pwd, cid, seedR, skR, rReg, nR, rLog, eR, sR⟩ pwd,
          sessionKeyOf (fAke ⟨pwd, cid, seedR, skR, rReg, nR, rLog, eR, sR⟩ pwd),
          fEk ⟨pwd, cid, seedR, skR, rReg, nR, rLog, eR, sR⟩,
          elemEnc (fSetup ⟨pwd, cid, seedR, skR, rReg, nR, rLog, eR, sR⟩).pk) ∧
      (server_finish_login sst
        (fKe3 ⟨pwd, cid, seedR, skR, rReg, nR, rLog, eR, sR⟩ pwd) {}).1 =
        .ok (sessionKeyOf (fAke ⟨pwd, cid, seedR, skR, rReg, nR, rLog, eR, sR⟩ pwd)) := by
  have hcrs : ClientRegistrationState.deserialize
      (ClientRegistrationState.serialize
        (fRst ⟨pwd, cid, seedR, skR, rReg, nR, rLog, eR, sR⟩)) =
      .ok (fRst ⟨pwd, cid, seedR, skR, rReg, nR, rLog, eR, sR⟩) :=
    crs_roundtrip (nonzeroScalar_ne_zero _) pwd
  have hcls : ClientLoginState.deserialize
      (ClientLoginState.serialize
        (fLst ⟨pwd, cid, seedR, skR, rReg, nR, rLog, eR, sR⟩ pwd)) =
      .ok (fLst ⟨pwd, cid, seedR, skR, rReg, nR, rLog, eR, sR⟩ pwd) :=
    cls_roundtrip (nonzeroScalar_ne_zero _) (nonzeroScalar_ne_zero _)
      (fKe1_len ⟨pwd, cid, seedR, skR, rReg, nR, rLog, eR, sR⟩ pwd)
  have hsls : ServerLoginState.deserialize
      (ServerLoginState.serialize
        (fSst ⟨pwd, cid, seedR, skR, rReg, nR, rLog, eR, sR⟩ pwd)) =
      .ok (fSst ⟨pwd, cid, seedR, skR, rReg, nR, rLog, eR, sR⟩ pwd) :=
    sls_roundtrip (fKe3_len ⟨pwd, cid, seedR, skR, rReg, nR, rLog, eR, sR⟩ pwd)
      (sessionKeyOf_len _)
  refine ⟨fReq ⟨pwd, cid, seedR, skR, rReg, nR, rLog, eR, sR⟩,
    fRst ⟨pwd, cid, seedR, skR, rReg, nR, rLog, eR, sR⟩,
    fKe1 ⟨pwd, cid, seedR, skR, rReg, nR, rLog, eR, sR⟩ pwd,
    fLst ⟨pwd, cid, seedR, skR, rReg, nR, rLog, eR, sR⟩ pwd,
    fKe2 ⟨pwd, cid, seedR, skR, rReg, nR, rLog, eR, sR⟩ pwd,
    fSst ⟨pwd, cid, seedR, skR, rReg, nR, rLog, eR, sR⟩ pwd,
    step1 ⟨pwd, cid, seedR, skR, rReg, nR, rLog, eR, sR⟩ h, hcrs, ?_,
    step5 ⟨pwd, cid, seedR, skR, rReg, nR, rLog, eR, sR⟩ h, hcls, ?_,
    step6 ⟨pwd, cid, seedR, skR, rReg, nR, rLog, eR, sR⟩ pwd, hsls, ?_, ?_, ?_⟩
  · intro rst' hrst' resp ps n
    have h2 : (.ok rst' : Except Error ClientRegistrationState) =
        .ok (fRst ⟨pwd, cid, seedR, skR, rReg, nR, rLog, eR, sR⟩) := by
      rw [← hrst']
      exact hcrs
    rw [Except.ok.inj h2]
  · intro lst' hlst' k2 ps
    have h2 : (.ok lst' : Except Error ClientLoginState) =
        .ok (fLst ⟨pwd, cid, seedR, skR, rReg, nR, rLog, eR, sR⟩ pwd) := by
      rw [← hlst']
      exact hcls
    rw [Except.ok.inj h2]
  · intro sst' hsst' k3 ps
    have h2 : (.ok sst' : Except Error ServerLoginState) =
        .ok (fSst ⟨pwd, cid, seedR, skR, rReg, nR, rLog, eR, sR⟩ pwd) := by
      rw [← hsst']
      exact hsls
    rw [Except.ok.inj h2]
  · rw [step7 ⟨pwd, cid, seedR, skR, rReg, nR, rLog, eR, sR⟩]
  · rw [step8 ⟨pwd, cid, seedR, skR, rReg, nR, rLog, eR, sR⟩ pwd]

/-- Witness for C9 at concrete inputs. -/
theorem c9_state_roundtrip_witness :
    ∃ (req : Bytes) (rst : ClientRegistrationState) (ke1 : Bytes)
      (lst : ClientLoginState) (ke2 : Bytes) (sst : ServerLoginState),
      client_start_registration [112] 3 = .ok (req, rst) ∧
      ClientRegistrationState.deserialize rst.serialize = .ok rst ∧
      (∀ rst', ClientRegistrationState.deserialize rst.serialize = .ok rst' →
        ∀ (resp : Bytes) (ps : ClientRegistrationFinishParameters) (n : Nat),
        client_finish_registration rst' [112] resp ps n =
          client_finish_registration rst [112] resp ps n) ∧
      client_start_login [112] 5 6 = .ok (ke1, lst) ∧
      ClientLoginState.deserialize lst.serialize = .ok lst ∧
      (∀ lst', ClientLoginState.deserialize lst.serialize = .ok lst' →
        ∀ (k2 : Bytes) (ps : ClientLoginFinishParameters),
        client_finish_login lst' [112] k2 ps = client_finish_login lst [112] k2 ps) ∧
      server_start_login (ServerSetup.create 1 2)
        (some (fFile ⟨[112], [117], 1, 2, 3, 4, 5, 6, 7⟩)) ke1 [117] {} 7 =
        .ok (ke2, sst) ∧
      ServerLoginState.deserialize sst.serialize = .ok sst ∧
      (∀ sst', ServerLoginState.deserialize sst.serialize = .ok sst' →
        ∀ (k3 : Bytes) (ps : ServerLoginParameters),
        server_finish_login sst' k3 ps = server_finish_login sst k3 ps) ∧
      (client_finish_login lst [112] ke2 {}).1 =
        .ok (fKe3 ⟨[112], [117], 1, 2, 3, 4, 5, 6, 7⟩ [112],
          sessionKeyOf (fAke ⟨[112], [117], 1, 2, 3, 4, 5, 6, 7⟩ [112]),
          fEk ⟨[112], [117], 1, 2, 3, 4, 5, 6, 7⟩,
          elemEnc (fSetup ⟨[112], [117], 1, 2, 3, 4, 5, 6, 7⟩).pk) ∧
      (server_finish_login sst
        (fKe3 ⟨[112], [117], 1, 2, 3, 4, 5, 6, 7⟩ [112]) {}).1 =
        .ok (sessionKeyOf (fAke ⟨[112], [117], 1, 2, 3, 4, 5, 6, 7⟩ [112])) :=
  c9_state_roundtrip [112] [117] 1 2 3 4 5 6 7 (by decide)

/-- C10: base64url decode inverts encode for every byte string, decode
accepts both unpadded and padded input, encode emits no padding character,
and decoding a non-base64url string (the ASCII codes of "not-base64!") fails
with `SerializationError`. -/
theorem c10_base64 (x : List Nat) (h : ∀ b ∈ x, b < 256) :
    decode_b64 (encode_b64 x) = .ok x ∧
    (∀ k : Nat, decode_b64 (encode_b64 x ++ List.replicate k 61) = .ok x) ∧
    61 ∉ encode_b64 x ∧
    decode_b64 [110, 111, 116, 45, 98, 97, 115, 101, 54, 52, 33] =
      .error .serializationError := by
  refine ⟨?_, ?_, ?_, by decide⟩
  · simp only [decode_b64, stripPad_encode, decodeCore_encode h]
  · intro k
    simp only [decode_b64, stripPad_encode_pad, decodeCore_encode h]
  · intro hmem
    exact encode_b64_ne_61 x 61 hmem rfl

/-- Witness for C10 at a concrete byte string. -/
theorem c10_base64_witness :
    decode_b64 (encode_b64 [1, 255, 7, 8]) = .ok [1, 255, 7, 8] ∧
    (∀ k : Nat, decode_b64 (encode_b64 [1, 255, 7, 8] ++ List.replicate k 61) =
      .ok [1, 255, 7, 8]) ∧
    61 ∉ encode_b64 [1, 255, 7, 8] ∧
    decode_b64 [110, 111, 116, 45, 98, 97, 115, 101, 54, 52, 33] =
      .error .serializationError :=
  c10_base64 [1, 255, 7, 8] (by decide)

end Opaque
